import Mathlib

/-!
Shallow embedding of Blender's image-buffer storage and ownership subsystem
(`source/blender/imbuf/intern/allocimbuf.cc`).

Modelling conventions:
* A raw memory region is modelled by its contents, `Option (List Nat)`:
  `none` is a null pointer and `some l` a non-null pointer to a region whose
  byte contents are `l` (one `Nat` per byte).
* The C allocator `MEM_callocN`/`MEM_cnew` may fail at runtime; allocation
  success is modelled by an oracle `alloc : Nat → Bool` consulted with the
  requested byte size.  `MEM_cnew<ImBuf>` (the aggregate allocation in
  `IMB_allocImBuf`) is modelled as always succeeding, since no claim depends
  on that allocation failing.
* Machine integers: `x`, `y`, `channels`, `encoded_buffer_size` and
  `encoded_size` are C `uint`/`int` values and are modelled as `Nat`; the one
  place where unsigned wrap-around is observable inside the excerpt (the
  `uint newsize = 2 * ibuf->encoded_buffer_size` computation) reduces modulo
  `2^32` explicitly.  `size_t` arithmetic in `imb_alloc_pixels` reduces
  modulo `2^64` explicitly.
* The implicit-sharing control block (`BLI_implicit_sharing`) is outside the
  excerpt; a slot's `implicit_sharing` field is modelled as an opaque handle
  `Option Nat` (present / absent, with an identifier).
* Mipmap children are full `ImBuf` objects in C; no claim observes the
  children's own contents, so chain entries are modelled as opaque handles
  `Option Nat` and releasing a level is modelled by nulling its entry.
* The collaborator calls `IMB_metadata_free`, `colormanage_cache_free`,
  `IMB_metadata_copy` and `colormanage_imbuf_set_default_spaces` are outside
  the excerpt.  Modelled from the spec: metadata storage has `copy`/`free`,
  the color-management cache has `free_cache`, and `set_default_spaces` only
  touches color-space fields that no claim observes.
-/

namespace Imbuf

/-- `2^32`, one past the largest C `uint` value. -/
def UINT32_MOD : Nat := 2 ^ 32

/-- `2^64`, one past the largest `size_t` value. -/
def UINT64_MOD : Nat := 2 ^ 64

/-- `SIZE_MAX` on the 64-bit platform targeted by the source. -/
def SIZE_MAX : Nat := 2 ^ 64 - 1

/-- `enum ImBufOwnership`. -/
inductive ImBufOwnership where
  | IB_DO_NOT_TAKE_OWNERSHIP
  | IB_TAKE_OWNERSHIP
  deriving DecidableEq, Repr

open ImBufOwnership

/-- One buffer slot (the template parameter `BufferType` of the source:
`ImBufByteBuffer`, `ImBufFloatBuffer`, ...).  `data` holds the region's
contents, `implicit_sharing` the optional shared-control-block handle. -/
structure ImBufBuffer where
  data : Option (List Nat)
  ownership : ImBufOwnership
  implicit_sharing : Option Nat
  deriving DecidableEq, Repr

/-- A freshly zeroed slot (all-zero bytes of a `memset` aggregate). -/
def emptyBuffer : ImBufBuffer :=
  { data := none, ownership := IB_DO_NOT_TAKE_OWNERSHIP, implicit_sharing := none }

/-- The `ImBuf::flags` bit set, restricted to the five slot-population bits
(`IB_rect`, `IB_rectfloat`, `IB_zbuf`, `IB_zbuffloat`, `IB_mem`); the enum's
concrete bit positions live in a header outside the excerpt, so the set is
modelled field-per-bit. -/
structure ImBufFlags where
  has_rect : Bool
  has_rectfloat : Bool
  has_zbuf : Bool
  has_zbuffloat : Bool
  has_mem : Bool
  deriving DecidableEq, Repr

/-- All five flag bits clear. -/
def noFlags : ImBufFlags :=
  { has_rect := false, has_rectfloat := false, has_zbuf := false,
    has_zbuffloat := false, has_mem := false }

/-- `IMB_MIPMAP_LEVELS`.  Modelled from the spec: the mipmap chain has a
fixed maximum level count (the concrete constant lives in a header outside
the excerpt; Blender uses 20). -/
def IMB_MIPMAP_LEVELS : Nat := 20

/-- The `ImBuf` aggregate, restricted to the fields the excerpt reads or
writes.  `mipmap` entries and the `metadata` / `colormanage_cache` /
`display_buffer_flags` handles are opaque (`Option Nat`); `dds_data` is the
third-party-decoded payload region. -/
structure ImBuf where
  x : Nat
  y : Nat
  planes : Nat
  channels : Nat
  flags : ImBufFlags
  refcounter : Nat
  byte_buffer : ImBufBuffer
  float_buffer : ImBufBuffer
  encoded_buffer : ImBufBuffer
  z_buffer : ImBufBuffer
  float_z_buffer : ImBufBuffer
  encoded_size : Nat
  encoded_buffer_size : Nat
  mipmap : List (Option Nat)
  miptot : Nat
  metadata : Option Nat
  display_buffer_flags : Option Nat
  colormanage_cache : Option Nat
  dds_data : Option (List Nat)
  ftype : Nat
  foptions_quality : Nat
  deriving DecidableEq, Repr

/-- Allocation oracle: `alloc n = true` iff the system allocator grants a
request of `n` bytes at this call site. -/
def AllocOracle : Type := Nat → Bool

/-- `MEM_callocN(size, ...)`: zero-initialized allocation of `size` bytes,
or null when the allocator refuses. -/
def MEM_callocN (alloc : AllocOracle) (size : Nat) : Option (List Nat) :=
  if alloc size then some (List.replicate size 0) else none

/-- `imb_alloc_pixels` (allocimbuf.cc:427-437): overflow-guarded
zero-initialized pixel allocation.  `uint64_t(x) * uint64_t(y)` is exact for
`uint` inputs; `channels * typesize` and the final size product are `size_t`
computations, reduced modulo `2^64`. -/
def imb_alloc_pixels (alloc : AllocOracle) (x y channels typesize : Nat) :
    Option (List Nat) :=
  if x * y < SIZE_MAX / (channels * typesize % UINT64_MOD) then
    MEM_callocN alloc (x * y * channels * typesize % UINT64_MOD)
  else
    none

/-- `imb_alloc_buffer` (allocimbuf.cc:92-106).  Note that the source first
assigns `buffer.data = imb_alloc_pixels(...)`, so on failure the slot's data
pointer has been overwritten with null while `ownership` and
`implicit_sharing` keep their previous values. -/
def imb_alloc_buffer (alloc : AllocOracle) (buffer : ImBufBuffer)
    (x y channels typesize : Nat) : Bool × ImBufBuffer :=
  match imb_alloc_pixels alloc x y channels typesize with
  | none => (false, { buffer with data := none })
  | some d =>
      (true, { data := some d, ownership := IB_TAKE_OWNERSHIP,
               implicit_sharing := none })

/-- `imb_free_buffer` (allocimbuf.cc:67-88): releases shared or owned memory
(the deallocation itself is not observable in the contents model) and resets
the slot to its defaults. -/
def imb_free_buffer (_buffer : ImBufBuffer) : ImBufBuffer :=
  { data := none, ownership := IB_DO_NOT_TAKE_OWNERSHIP,
    implicit_sharing := none }

/-- `imb_make_writeable_buffer` (allocimbuf.cc:110-130): copy-on-write
materialization.  `MEM_dupallocN` yields a fresh region with equal contents,
so in the contents model `data` is unchanged. -/
def imb_make_writeable_buffer (buffer : ImBufBuffer) : ImBufBuffer :=
  match buffer.data with
  | none => buffer
  | some d =>
      match buffer.ownership with
      | IB_DO_NOT_TAKE_OWNERSHIP =>
          { data := some d, ownership := IB_TAKE_OWNERSHIP,
            implicit_sharing := none }
      | IB_TAKE_OWNERSHIP => buffer

/-- `imb_steal_buffer_data` (allocimbuf.cc:132-157).  On a non-owned slot the
source hits a debug-only `BLI_assert` and returns null *without touching the
slot*; on an owned slot it hands the region to the caller and nulls `data`
and `ownership` (leaving `implicit_sharing` as it was). -/
def imb_steal_buffer_data (buffer : ImBufBuffer) :
    Option (List Nat) × ImBufBuffer :=
  match buffer.data with
  | none => (none, buffer)
  | some d =>
      match buffer.ownership with
      | IB_DO_NOT_TAKE_OWNERSHIP => (none, buffer)
      | IB_TAKE_OWNERSHIP =>
          (some d, { buffer with
                     data := none
                     ownership := IB_DO_NOT_TAKE_OWNERSHIP })

/-- `imb_assign_shared_buffer` (allocimbuf.cc:161-181): frees the old
content, then attaches the given shared region (or empties the slot when the
handle is null — in which case the source asserts, debug-only, that the data
pointer is null too, and stores null regardless). -/
def imb_assign_shared_buffer (buffer : ImBufBuffer)
    (buffer_data : Option (List Nat)) (implicit_sharing : Option Nat) :
    ImBufBuffer :=
  let buffer := imb_free_buffer buffer
  match implicit_sharing with
  | some h =>
      { data := buffer_data, ownership := IB_DO_NOT_TAKE_OWNERSHIP,
        implicit_sharing := some h }
  | none =>
      { buffer with
        data := none
        implicit_sharing := none
        ownership := IB_DO_NOT_TAKE_OWNERSHIP }

/-- `memcpy(dst, src, n)` on byte contents: the first `n` bytes of `src`
overwrite the first `n` bytes of `dst`. -/
def memcpyBytes (dst src : List Nat) (n : Nat) : List Nat :=
  List.take n src ++ List.drop n dst

/-- `memcpy` between two slots' regions.  A null pointer on either side is
undefined behavior in C; it is modelled as leaving the destination slot
unchanged (every theorem below only evaluates this helper with both regions
non-null). -/
def bufMemcpy (dst src : ImBufBuffer) (n : Nat) : ImBufBuffer :=
  match dst.data, src.data with
  | some d, some s => { dst with data := some (memcpyBytes d s n) }
  | _, _ => dst

/-- `imb_freemipmapImBuf` (allocimbuf.cc:183-197): releases every non-null
mipmap level through `IMB_freeImBuf` (children are opaque handles here),
nulls every entry and resets `miptot`. -/
def imb_freemipmapImBuf (ibuf : ImBuf) : ImBuf :=
  { ibuf with
    mipmap := List.replicate IMB_MIPMAP_LEVELS none
    miptot := 0 }

/-- `imb_freerectfloatImBuf` (allocimbuf.cc:199-210), non-null case. -/
def imb_freerectfloatImBuf (ibuf : ImBuf) : ImBuf :=
  let ibuf := { ibuf with float_buffer := imb_free_buffer ibuf.float_buffer }
  let ibuf := imb_freemipmapImBuf ibuf
  { ibuf with flags := { ibuf.flags with has_rectfloat := false } }

/-- `imb_freerectImBuf` (allocimbuf.cc:212-223), non-null case. -/
def imb_freerectImBuf (ibuf : ImBuf) : ImBuf :=
  let ibuf := { ibuf with byte_buffer := imb_free_buffer ibuf.byte_buffer }
  let ibuf := imb_freemipmapImBuf ibuf
  { ibuf with flags := { ibuf.flags with has_rect := false } }

/-- `freeencodedbufferImBuf` (allocimbuf.cc:225-237), non-null case. -/
def freeencodedbufferImBuf (ibuf : ImBuf) : ImBuf :=
  { ibuf with
    encoded_buffer := imb_free_buffer ibuf.encoded_buffer
    encoded_buffer_size := 0
    encoded_size := 0
    flags := { ibuf.flags with has_mem := false } }

/-- `IMB_freezbufImBuf` (allocimbuf.cc:239-248), non-null case. -/
def IMB_freezbufImBuf (ibuf : ImBuf) : ImBuf :=
  let ibuf := { ibuf with z_buffer := imb_free_buffer ibuf.z_buffer }
  { ibuf with flags := { ibuf.flags with has_zbuf := false } }

/-- `IMB_freezbuffloatImBuf` (allocimbuf.cc:250-259), non-null case. -/
def IMB_freezbuffloatImBuf (ibuf : ImBuf) : ImBuf :=
  let ibuf := { ibuf with float_z_buffer := imb_free_buffer ibuf.float_z_buffer }
  { ibuf with flags := { ibuf.flags with has_zbuffloat := false } }

/-- `imb_freerectImbuf_all` (allocimbuf.cc:261-268). -/
def imb_freerectImbuf_all (ibuf : ImBuf) : ImBuf :=
  freeencodedbufferImBuf
    (IMB_freezbuffloatImBuf
      (IMB_freezbufImBuf
        (imb_freerectfloatImBuf
          (imb_freerectImBuf ibuf))))

/-- Outcome of `IMB_freeImBuf` on a non-null object: either the object
survives with a decremented count, or teardown ran and the aggregate's
memory was returned to the allocator (`freed` carries the state the
aggregate held just before `MEM_freeN(ibuf)`). -/
inductive FreeResult where
  | alive (ibuf : ImBuf)
  | freed (final : ImBuf)
  deriving DecidableEq, Repr

/-- The teardown half of `IMB_freeImBuf` (allocimbuf.cc:287-301): all slots,
mipmaps, metadata, the color-management cache and the third-party-decoded
payload are freed. -/
def IMB_freeImBuf_teardown (ibuf : ImBuf) : ImBuf :=
  let ibuf := imb_freerectImbuf_all ibuf
  let ibuf := { ibuf with metadata := none }
  let ibuf := { ibuf with
                display_buffer_flags := none
                colormanage_cache := none }
  { ibuf with dds_data := none }

/-- `IMB_freeImBuf` (allocimbuf.cc:270-302), non-null case: under the
refcounter lock, a positive count is decremented and the object survives;
a zero count triggers full teardown. -/
def IMB_freeImBuf (ibuf : ImBuf) : FreeResult :=
  if 0 < ibuf.refcounter then
    FreeResult.alive { ibuf with refcounter := ibuf.refcounter - 1 }
  else
    FreeResult.freed (IMB_freeImBuf_teardown ibuf)

/-- `IMB_refImBuf` (allocimbuf.cc:304-309): unconditional increment under
the refcounter lock.  Note the source has no null check here. -/
def IMB_refImBuf (ibuf : ImBuf) : ImBuf :=
  { ibuf with refcounter := ibuf.refcounter + 1 }

/-- `addzbufImBuf` (allocimbuf.cc:333-348), non-null case: frees any old
depth slot, allocates a fresh one (`sizeof(uint)` = 4) and sets `IB_zbuf`,
then returns `false` on both exits — the success path's return value is the
literal `false`. -/
def addzbufImBuf (alloc : AllocOracle) (ibuf : ImBuf) : Bool × ImBuf :=
  let ibuf := IMB_freezbufImBuf ibuf
  let r := imb_alloc_buffer alloc ibuf.z_buffer ibuf.x ibuf.y 1 4
  let ibuf := { ibuf with z_buffer := r.2 }
  if r.1 then
    (false, { ibuf with flags := { ibuf.flags with has_zbuf := true } })
  else
    (false, ibuf)

/-- `addzbuffloatImBuf` (allocimbuf.cc:350-365), non-null case
(`sizeof(float)` = 4). -/
def addzbuffloatImBuf (alloc : AllocOracle) (ibuf : ImBuf) : Bool × ImBuf :=
  let ibuf := IMB_freezbuffloatImBuf ibuf
  let r := imb_alloc_buffer alloc ibuf.float_z_buffer ibuf.x ibuf.y 1 4
  let ibuf := { ibuf with float_z_buffer := r.2 }
  if r.1 then
    (true, { ibuf with flags := { ibuf.flags with has_zbuffloat := true } })
  else
    (false, ibuf)

/-- `imb_addencodedbufferImBuf` (allocimbuf.cc:367-388), non-null case.
`freeencodedbufferImBuf` zeroes `encoded_buffer_size` first, so the slot is
always (re-)allocated with capacity 10000. -/
def imb_addencodedbufferImBuf (alloc : AllocOracle) (ibuf : ImBuf) :
    Bool × ImBuf :=
  let ibuf := freeencodedbufferImBuf ibuf
  let ibuf := if ibuf.encoded_buffer_size = 0 then
                { ibuf with encoded_buffer_size := 10000 }
              else ibuf
  let ibuf := { ibuf with encoded_size := 0 }
  let r := imb_alloc_buffer alloc ibuf.encoded_buffer ibuf.encoded_buffer_size 1 1 1
  let ibuf := { ibuf with encoded_buffer := r.2 }
  if r.1 then
    (true, { ibuf with flags := { ibuf.flags with has_mem := true } })
  else
    (false, ibuf)

/-- The `uint newsize = 2 * ibuf->encoded_buffer_size; if (newsize < 10000)
newsize = 10000;` computation of `imb_enlargeencodedbufferImBuf`
(allocimbuf.cc:401-404); the doubling wraps at `2^32` (C `uint`). -/
def enlarge_newsize (encoded_buffer_size : Nat) : Nat :=
  let newsize := 2 * encoded_buffer_size % UINT32_MOD
  if newsize < 10000 then 10000 else newsize

/-- `imb_enlargeencodedbufferImBuf` (allocimbuf.cc:390-425), non-null case:
fails loudly when the in-use size exceeds the capacity, otherwise grows the
encoded slot, copying forward only the in-use bytes; a null old region
forces the in-use size to zero. -/
def imb_enlargeencodedbufferImBuf (alloc : AllocOracle) (ibuf : ImBuf) :
    Bool × ImBuf :=
  if ibuf.encoded_buffer_size < ibuf.encoded_size then
    (false, ibuf)
  else
    let newsize := enlarge_newsize ibuf.encoded_buffer_size
    let r := imb_alloc_buffer alloc emptyBuffer newsize 1 1 1
    if r.1 then
      match ibuf.encoded_buffer.data with
      | some _ =>
          let new_buffer := bufMemcpy r.2 ibuf.encoded_buffer ibuf.encoded_size
          (true, { ibuf with
                   encoded_buffer := new_buffer
                   encoded_buffer_size := newsize
                   flags := { ibuf.flags with has_mem := true } })
      | none =>
          (true, { ibuf with
                   encoded_size := 0
                   encoded_buffer := r.2
                   encoded_buffer_size := newsize
                   flags := { ibuf.flags with has_mem := true } })
    else
      (false, ibuf)

/-- `imb_addrectfloatImBuf` (allocimbuf.cc:439-460), non-null case
(`sizeof(float)` = 4). -/
def imb_addrectfloatImBuf (alloc : AllocOracle) (ibuf : ImBuf)
    (channels : Nat) : Bool × ImBuf :=
  let ibuf := if ibuf.float_buffer.data.isSome then
                imb_freerectfloatImBuf ibuf
              else ibuf
  let r := imb_alloc_buffer alloc ibuf.float_buffer ibuf.x ibuf.y channels 4
  let ibuf := { ibuf with float_buffer := r.2 }
  if r.1 then
    (true, { ibuf with
             channels := channels
             flags := { ibuf.flags with has_rectfloat := true } })
  else
    (false, ibuf)

/-- `imb_addrectImBuf` (allocimbuf.cc:462-485), non-null case: frees the
byte slot directly (without touching the `IB_rect` flag), reallocates it
(4 channels of `sizeof(uint8_t)` = 1), and for `planes > 32` tail-calls
`addzbufImBuf`. -/
def imb_addrectImBuf (alloc : AllocOracle) (ibuf : ImBuf) : Bool × ImBuf :=
  let ibuf := { ibuf with byte_buffer := imb_free_buffer ibuf.byte_buffer }
  let r := imb_alloc_buffer alloc ibuf.byte_buffer ibuf.x ibuf.y 4 1
  let ibuf := { ibuf with byte_buffer := r.2 }
  if r.1 then
    let ibuf := { ibuf with flags := { ibuf.flags with has_rect := true } }
    if 32 < ibuf.planes then
      addzbufImBuf alloc ibuf
    else
      (true, ibuf)
  else
    (false, ibuf)

/-- `IMB_FTYPE_PNG`: the default file-type tag set by `IMB_initImBuf`; the
enum's concrete value lives in a header outside the excerpt, so it is an
arbitrary fixed tag here. -/
def IMB_FTYPE_PNG : Nat := 1

/-- The freshly zeroed aggregate with the defaults set by `IMB_initImBuf`
(allocimbuf.cc:688-699): the `memset`, dimensions, file type, quality,
default channel count (the `ppm` density fields are floating point and no
claim mentions them, so they are not part of the model). -/
def initImBufBase (x y planes : Nat) : ImBuf :=
  { x := x
    y := y
    planes := planes
    channels := 4
    flags := noFlags
    refcounter := 0
    byte_buffer := emptyBuffer
    float_buffer := emptyBuffer
    encoded_buffer := emptyBuffer
    z_buffer := emptyBuffer
    float_z_buffer := emptyBuffer
    encoded_size := 0
    encoded_buffer_size := 0
    mipmap := List.replicate IMB_MIPMAP_LEVELS none
    miptot := 0
    metadata := none
    display_buffer_flags := none
    colormanage_cache := none
    dds_data := none
    ftype := IMB_FTYPE_PNG
    foptions_quality := 15 }

/-- One conditional slot-allocation step of `IMB_initImBuf`'s body: skipped
when the flag is not requested, propagating an earlier `return false`
unchanged, and stopping the chain when this step's allocation reports
failure. -/
def initStep (cond : Bool) (f : ImBuf → Bool × ImBuf) :
    Bool × ImBuf → Bool × ImBuf
  | (false, ibuf) => (false, ibuf)
  | (true, ibuf) => if cond then f ibuf else (true, ibuf)

/-- `IMB_initImBuf` (allocimbuf.cc:686-729): zeroes the aggregate, sets the
defaults, then conditionally allocates each requested slot with an early
`false` return on failure.  The trailing
`colormanage_imbuf_set_default_spaces` collaborator call only touches
color-space fields that are not part of this model. -/
def IMB_initImBuf (alloc : AllocOracle) (x y planes : Nat)
    (flags : ImBufFlags) : Bool × ImBuf :=
  initStep flags.has_zbuffloat (addzbuffloatImBuf alloc)
    (initStep flags.has_zbuf (addzbufImBuf alloc)
      (initStep flags.has_rectfloat
        (fun ibuf => imb_addrectfloatImBuf alloc ibuf ibuf.channels)
        (initStep flags.has_rect (imb_addrectImBuf alloc)
          (true, initImBufBase x y planes))))

/-- `IMB_allocImBuf` (allocimbuf.cc:672-684).  The `MEM_cnew<ImBuf>`
aggregate allocation is modelled as succeeding; on `IMB_initImBuf` failure
the partial aggregate is released and null is returned. -/
def IMB_allocImBuf (alloc : AllocOracle) (x y planes : Nat)
    (flags : ImBufFlags) : Option ImBuf :=
  let r := IMB_initImBuf alloc x y planes flags
  if r.1 then some r.2 else none

/-- The tail of `IMB_dupImBuf` (allocimbuf.cc:792-817): `tbuf = *ibuf1`
copies every scalar field of the source (including `flags`, `channels`, the
encoded sizes and `miptot`), then the buffer pointers are replaced by the
duplicate's, the mipmap entries and `dds_data` are nulled, the refcount is
reset to zero and the metadata / color-management handles are cleared;
finally `*ibuf2 = tbuf`. -/
def dupStructCopy (ibuf1 ibuf2 : ImBuf) : ImBuf :=
  { ibuf1 with
    byte_buffer := ibuf2.byte_buffer
    float_buffer := ibuf2.float_buffer
    encoded_buffer := ibuf2.encoded_buffer
    z_buffer := ibuf2.z_buffer
    float_z_buffer := ibuf2.float_z_buffer
    mipmap := List.replicate IMB_MIPMAP_LEVELS none
    dds_data := none
    refcounter := 0
    metadata := none
    display_buffer_flags := none
    colormanage_cache := none }

/-- The four conditional slot copies of `IMB_dupImBuf`
(allocimbuf.cc:764-780), applied to the freshly allocated duplicate
`ibuf2`.  Note the last branch: for `IB_zbuffloat` the source copies
`float_buffer`, not `float_z_buffer`. -/
def dupCopySlots (ibuf1 ibuf2 : ImBuf) (flags : ImBufFlags) (x y : Nat) :
    ImBuf :=
  let ibuf2 := if flags.has_rect then
      { ibuf2 with
        byte_buffer := bufMemcpy ibuf2.byte_buffer ibuf1.byte_buffer
          (x * y * 4 * 1) }
    else ibuf2
  let ibuf2 := if flags.has_rectfloat then
      { ibuf2 with
        float_buffer := bufMemcpy ibuf2.float_buffer ibuf1.float_buffer
          (ibuf1.channels * x * y * 4) }
    else ibuf2
  let ibuf2 := if flags.has_zbuf then
      { ibuf2 with
        z_buffer := bufMemcpy ibuf2.z_buffer ibuf1.z_buffer
          (x * y * 4) }
    else ibuf2
  if flags.has_zbuffloat then
    { ibuf2 with
      float_buffer := bufMemcpy ibuf2.float_buffer ibuf1.float_buffer
        (x * y * 4) }
  else ibuf2

/-- `IMB_dupImBuf` (allocimbuf.cc:731-818), non-null case.  Faithful to the
source, including: the `IB_zbuffloat` branch copies `float_buffer` (not
`float_z_buffer`); the duplicate's scalar fields come from the
`tbuf = *ibuf1` struct copy (so `flags`, `channels`, the encoded sizes and
`miptot` are the source's), with the buffer pointers, mipmap entries,
`dds_data`, refcount, metadata and color-management handles fixed up. -/
def IMB_dupImBuf (alloc : AllocOracle) (ibuf1 : ImBuf) : Option ImBuf :=
  let flags : ImBufFlags :=
    { has_rect := ibuf1.byte_buffer.data.isSome
      has_rectfloat := ibuf1.float_buffer.data.isSome
      has_zbuf := ibuf1.z_buffer.data.isSome
      has_zbuffloat := ibuf1.float_z_buffer.data.isSome
      has_mem := false }
  let x := ibuf1.x
  let y := ibuf1.y
  match IMB_allocImBuf alloc x y ibuf1.planes flags with
  | none => none
  | some start =>
    let ibuf2 := dupCopySlots ibuf1 start flags x y
    if ibuf1.encoded_buffer.data.isSome then
      let ibuf2 := { ibuf2 with encoded_buffer_size := ibuf1.encoded_buffer_size }
      match imb_addencodedbufferImBuf alloc ibuf2 with
      | (false, _) => none
      | (true, ibuf2) =>
        let ibuf2 := { ibuf2 with
                       encoded_buffer := bufMemcpy ibuf2.encoded_buffer
                         ibuf1.encoded_buffer ibuf1.encoded_size }
        some (dupStructCopy ibuf1 ibuf2)
    else
      some (dupStructCopy ibuf1 ibuf2)

/-- `IMB_makeSingleUser` (allocimbuf.cc:311-331), non-null case: a zero
count returns the very same object; otherwise a duplicate is produced, the
metadata is copied onto it (collaborator call, modelled from the spec as
`copy(dst, src)`), and one reference of the original is released (the count
is positive here, so the original survives with its other holders).  When
duplication fails the source passes null into `IMB_metadata_copy`; the model
returns null. -/
def IMB_makeSingleUser (alloc : AllocOracle) (ibuf : ImBuf) : Option ImBuf :=
  if ibuf.refcounter = 0 then
    some ibuf
  else
    match IMB_dupImBuf alloc ibuf with
    | none => none
    | some rval => some { rval with metadata := ibuf.metadata }

/-- `IMB_steal_byte_buffer` (allocimbuf.cc:487-492), non-null case: steals
the slot's region and clears `IB_rect` unconditionally. -/
def IMB_steal_byte_buffer (ibuf : ImBuf) : Option (List Nat) × ImBuf :=
  let r := imb_steal_buffer_data ibuf.byte_buffer
  (r.1, { ibuf with
          byte_buffer := r.2
          flags := { ibuf.flags with has_rect := false } })

/-- `IMB_steal_float_buffer` (allocimbuf.cc:494-499), non-null case. -/
def IMB_steal_float_buffer (ibuf : ImBuf) : Option (List Nat) × ImBuf :=
  let r := imb_steal_buffer_data ibuf.float_buffer
  (r.1, { ibuf with
          float_buffer := r.2
          flags := { ibuf.flags with has_rectfloat := false } })

/-- `IMB_steal_encoded_buffer` (allocimbuf.cc:501-511), non-null case. -/
def IMB_steal_encoded_buffer (ibuf : ImBuf) : Option (List Nat) × ImBuf :=
  let r := imb_steal_buffer_data ibuf.encoded_buffer
  (r.1, { ibuf with
          encoded_buffer := r.2
          encoded_size := 0
          encoded_buffer_size := 0
          flags := { ibuf.flags with has_mem := false } })

/-- `IMB_make_writable_byte_buffer` (allocimbuf.cc:513-516), non-null
case. -/
def IMB_make_writable_byte_buffer (ibuf : ImBuf) : ImBuf :=
  { ibuf with byte_buffer := imb_make_writeable_buffer ibuf.byte_buffer }

/-- `IMB_make_writable_float_buffer` (allocimbuf.cc:518-521), non-null
case. -/
def IMB_make_writable_float_buffer (ibuf : ImBuf) : ImBuf :=
  { ibuf with float_buffer := imb_make_writeable_buffer ibuf.float_buffer }

/-- `IMB_assign_shared_byte_buffer` (allocimbuf.cc:523-534), non-null
case. -/
def IMB_assign_shared_byte_buffer (ibuf : ImBuf)
    (buffer_data : Option (List Nat)) (implicit_sharing : Option Nat) :
    ImBuf :=
  let ibuf := { ibuf with
                byte_buffer := imb_free_buffer ibuf.byte_buffer
                flags := { ibuf.flags with has_rect := false } }
  match buffer_data with
  | some bd =>
      { ibuf with
        byte_buffer := imb_assign_shared_buffer ibuf.byte_buffer (some bd)
          implicit_sharing
        flags := { ibuf.flags with has_rect := true } }
  | none => ibuf

/-- `IMB_assign_shared_float_buffer` (allocimbuf.cc:536-547), non-null
case. -/
def IMB_assign_shared_float_buffer (ibuf : ImBuf)
    (buffer_data : Option (List Nat)) (implicit_sharing : Option Nat) :
    ImBuf :=
  let ibuf := { ibuf with
                float_buffer := imb_free_buffer ibuf.float_buffer
                flags := { ibuf.flags with has_rectfloat := false } }
  match buffer_data with
  | some bd =>
      { ibuf with
        float_buffer := imb_assign_shared_buffer ibuf.float_buffer (some bd)
          implicit_sharing
        flags := { ibuf.flags with has_rectfloat := true } }
  | none => ibuf

/-- `IMB_assign_shared_float_z_buffer` (allocimbuf.cc:549-560), non-null
case. -/
def IMB_assign_shared_float_z_buffer (ibuf : ImBuf)
    (buffer_data : Option (List Nat)) (implicit_sharing : Option Nat) :
    ImBuf :=
  let ibuf := { ibuf with
                float_z_buffer := imb_free_buffer ibuf.float_z_buffer
                flags := { ibuf.flags with has_zbuffloat := false } }
  match buffer_data with
  | some bd =>
      { ibuf with
        float_z_buffer := imb_assign_shared_buffer ibuf.float_z_buffer
          (some bd) implicit_sharing
        flags := { ibuf.flags with has_zbuffloat := true } }
  | none => ibuf

/-- `IMB_assign_byte_buffer` (allocimbuf.cc:562-573), non-null case. -/
def IMB_assign_byte_buffer (ibuf : ImBuf) (buffer_data : Option (List Nat))
    (ownership : ImBufOwnership) : ImBuf :=
  let ibuf := { ibuf with
                byte_buffer := imb_free_buffer ibuf.byte_buffer
                flags := { ibuf.flags with has_rect := false } }
  match buffer_data with
  | some bd =>
      { ibuf with
        byte_buffer := { ibuf.byte_buffer with
                         data := some bd
                         ownership := ownership }
        flags := { ibuf.flags with has_rect := true } }
  | none => ibuf

/-- `IMB_assign_float_buffer` (allocimbuf.cc:575-586), non-null case. -/
def IMB_assign_float_buffer (ibuf : ImBuf) (buffer_data : Option (List Nat))
    (ownership : ImBufOwnership) : ImBuf :=
  let ibuf := { ibuf with
                float_buffer := imb_free_buffer ibuf.float_buffer
                flags := { ibuf.flags with has_rectfloat := false } }
  match buffer_data with
  | some bd =>
      { ibuf with
        float_buffer := { ibuf.float_buffer with
                          data := some bd
                          ownership := ownership }
        flags := { ibuf.flags with has_rectfloat := true } }
  | none => ibuf

/-- `IMB_assign_z_buffer` (allocimbuf.cc:588-599), non-null case. -/
def IMB_assign_z_buffer (ibuf : ImBuf) (buffer_data : Option (List Nat))
    (ownership : ImBufOwnership) : ImBuf :=
  let ibuf := { ibuf with
                z_buffer := imb_free_buffer ibuf.z_buffer
                flags := { ibuf.flags with has_zbuf := false } }
  match buffer_data with
  | some bd =>
      { ibuf with
        z_buffer := { ibuf.z_buffer with
                      data := some bd
                      ownership := ownership }
        flags := { ibuf.flags with has_zbuf := true } }
  | none => ibuf

/-- `IMB_assign_float_z_buffer` (allocimbuf.cc:601-612), non-null case. -/
def IMB_assign_float_z_buffer (ibuf : ImBuf)
    (buffer_data : Option (List Nat)) (ownership : ImBufOwnership) : ImBuf :=
  let ibuf := { ibuf with
                float_z_buffer := imb_free_buffer ibuf.float_z_buffer
                flags := { ibuf.flags with has_zbuffloat := false } }
  match buffer_data with
  | some bd =>
      { ibuf with
        float_z_buffer := { ibuf.float_z_buffer with
                            data := some bd
                            ownership := ownership }
        flags := { ibuf.flags with has_zbuffloat := true } }
  | none => ibuf

/-!
Entry-point wrappers over a nullable `ImBuf *`.  `none` is the null
pointer; a result of `Except.error ()` means the call dereferences the null
pointer (a crash), `Except.ok` the value the call returns.  Whether a
wrapper null-checks is read off the first statements of the corresponding
source function.
-/

/-- Null-pointer crash marker. -/
def nullDeref {α : Type} : Except Unit α := Except.error ()

/-- `IMB_freeImBuf` null-checks (line 272) and returns immediately. -/
def IMB_freeImBuf_entry : Option ImBuf → Except Unit (Option FreeResult)
  | none => Except.ok none
  | some b => Except.ok (some (IMB_freeImBuf b))

/-- `IMB_refImBuf` has no null check: `ibuf->refcounter++` (line 307)
dereferences the pointer unconditionally. -/
def IMB_refImBuf_entry : Option ImBuf → Except Unit ImBuf
  | none => nullDeref
  | some b => Except.ok (IMB_refImBuf b)

/-- `IMB_makeSingleUser` null-checks (line 313) and returns null. -/
def IMB_makeSingleUser_entry (alloc : AllocOracle) :
    Option ImBuf → Except Unit (Option ImBuf)
  | none => Except.ok none
  | some b => Except.ok (IMB_makeSingleUser alloc b)

/-- `imb_freerectImBuf` null-checks (line 214). -/
def imb_freerectImBuf_entry : Option ImBuf → Except Unit (Option ImBuf)
  | none => Except.ok none
  | some b => Except.ok (some (imb_freerectImBuf b))

/-- `imb_freerectfloatImBuf` null-checks (line 201). -/
def imb_freerectfloatImBuf_entry : Option ImBuf → Except Unit (Option ImBuf)
  | none => Except.ok none
  | some b => Except.ok (some (imb_freerectfloatImBuf b))

/-- `IMB_freezbufImBuf` null-checks (line 241). -/
def IMB_freezbufImBuf_entry : Option ImBuf → Except Unit (Option ImBuf)
  | none => Except.ok none
  | some b => Except.ok (some (IMB_freezbufImBuf b))

/-- `IMB_freezbuffloatImBuf` null-checks (line 252). -/
def IMB_freezbuffloatImBuf_entry : Option ImBuf → Except Unit (Option ImBuf)
  | none => Except.ok none
  | some b => Except.ok (some (IMB_freezbuffloatImBuf b))

/-- `freeencodedbufferImBuf` null-checks (line 227). -/
def freeencodedbufferImBuf_entry : Option ImBuf → Except Unit (Option ImBuf)
  | none => Except.ok none
  | some b => Except.ok (some (freeencodedbufferImBuf b))

/-- `addzbufImBuf` null-checks (line 335) and returns false. -/
def addzbufImBuf_entry (alloc : AllocOracle) :
    Option ImBuf → Except Unit (Bool × Option ImBuf)
  | none => Except.ok (false, none)
  | some b =>
      let r := addzbufImBuf alloc b
      Except.ok (r.1, some r.2)

/-- `addzbuffloatImBuf` null-checks (line 352) and returns false. -/
def addzbuffloatImBuf_entry (alloc : AllocOracle) :
    Option ImBuf → Except Unit (Bool × Option ImBuf)
  | none => Except.ok (false, none)
  | some b =>
      let r := addzbuffloatImBuf alloc b
      Except.ok (r.1, some r.2)

/-- `imb_addencodedbufferImBuf` null-checks (line 369) and returns false. -/
def imb_addencodedbufferImBuf_entry (alloc : AllocOracle) :
    Option ImBuf → Except Unit (Bool × Option ImBuf)
  | none => Except.ok (false, none)
  | some b =>
      let r := imb_addencodedbufferImBuf alloc b
      Except.ok (r.1, some r.2)

/-- `imb_enlargeencodedbufferImBuf` null-checks (line 392) and returns
false. -/
def imb_enlargeencodedbufferImBuf_entry (alloc : AllocOracle) :
    Option ImBuf → Except Unit (Bool × Option ImBuf)
  | none => Except.ok (false, none)
  | some b =>
      let r := imb_enlargeencodedbufferImBuf alloc b
      Except.ok (r.1, some r.2)

/-- `imb_addrectfloatImBuf` null-checks (line 441) and returns false. -/
def imb_addrectfloatImBuf_entry (alloc : AllocOracle) (channels : Nat) :
    Option ImBuf → Except Unit (Bool × Option ImBuf)
  | none => Except.ok (false, none)
  | some b =>
      let r := imb_addrectfloatImBuf alloc b channels
      Except.ok (r.1, some r.2)

/-- `imb_addrectImBuf` null-checks (line 466) and returns false. -/
def imb_addrectImBuf_entry (alloc : AllocOracle) :
    Option ImBuf → Except Unit (Bool × Option ImBuf)
  | none => Except.ok (false, none)
  | some b =>
      let r := imb_addrectImBuf alloc b
      Except.ok (r.1, some r.2)

/-- `IMB_steal_byte_buffer` has no null check: it dereferences
`ibuf->byte_buffer` (line 489) unconditionally. -/
def IMB_steal_byte_buffer_entry :
    Option ImBuf → Except Unit (Option (List Nat) × ImBuf)
  | none => nullDeref
  | some b => Except.ok (IMB_steal_byte_buffer b)

/-- `IMB_steal_float_buffer` has no null check (line 496). -/
def IMB_steal_float_buffer_entry :
    Option ImBuf → Except Unit (Option (List Nat) × ImBuf)
  | none => nullDeref
  | some b => Except.ok (IMB_steal_float_buffer b)

/-- `IMB_steal_encoded_buffer` has no null check (line 503). -/
def IMB_steal_encoded_buffer_entry :
    Option ImBuf → Except Unit (Option (List Nat) × ImBuf)
  | none => nullDeref
  | some b => Except.ok (IMB_steal_encoded_buffer b)

/-- `IMB_make_writable_byte_buffer` has no null check (line 515). -/
def IMB_make_writable_byte_buffer_entry :
    Option ImBuf → Except Unit ImBuf
  | none => nullDeref
  | some b => Except.ok (IMB_make_writable_byte_buffer b)

/-- `IMB_make_writable_float_buffer` has no null check (line 520). -/
def IMB_make_writable_float_buffer_entry :
    Option ImBuf → Except Unit ImBuf
  | none => nullDeref
  | some b => Except.ok (IMB_make_writable_float_buffer b)

/-- `IMB_assign_shared_byte_buffer` has no null check (line 527). -/
def IMB_assign_shared_byte_buffer_entry (buffer_data : Option (List Nat))
    (implicit_sharing : Option Nat) : Option ImBuf → Except Unit ImBuf
  | none => nullDeref
  | some b => Except.ok (IMB_assign_shared_byte_buffer b buffer_data implicit_sharing)

/-- `IMB_assign_shared_float_buffer` has no null check (line 540). -/
def IMB_assign_shared_float_buffer_entry (buffer_data : Option (List Nat))
    (implicit_sharing : Option Nat) : Option ImBuf → Except Unit ImBuf
  | none => nullDeref
  | some b => Except.ok (IMB_assign_shared_float_buffer b buffer_data implicit_sharing)

/-- `IMB_assign_shared_float_z_buffer` has no null check (line 553). -/
def IMB_assign_shared_float_z_buffer_entry (buffer_data : Option (List Nat))
    (implicit_sharing : Option Nat) : Option ImBuf → Except Unit ImBuf
  | none => nullDeref
  | some b => Except.ok (IMB_assign_shared_float_z_buffer b buffer_data implicit_sharing)

/-- `IMB_assign_byte_buffer` has no null check (line 564). -/
def IMB_assign_byte_buffer_entry (buffer_data : Option (List Nat))
    (ownership : ImBufOwnership) : Option ImBuf → Except Unit ImBuf
  | none => nullDeref
  | some b => Except.ok (IMB_assign_byte_buffer b buffer_data ownership)

/-- `IMB_assign_float_buffer` has no null check (line 577). -/
def IMB_assign_float_buffer_entry (buffer_data : Option (List Nat))
    (ownership : ImBufOwnership) : Option ImBuf → Except Unit ImBuf
  | none => nullDeref
  | some b => Except.ok (IMB_assign_float_buffer b buffer_data ownership)

/-- `IMB_assign_z_buffer` has no null check (line 590). -/
def IMB_assign_z_buffer_entry (buffer_data : Option (List Nat))
    (ownership : ImBufOwnership) : Option ImBuf → Except Unit ImBuf
  | none => nullDeref
  | some b => Except.ok (IMB_assign_z_buffer b buffer_data ownership)

/-- `IMB_assign_float_z_buffer` has no null check (line 603). -/
def IMB_assign_float_z_buffer_entry (buffer_data : Option (List Nat))
    (ownership : ImBufOwnership) : Option ImBuf → Except Unit ImBuf
  | none => nullDeref
  | some b => Except.ok (IMB_assign_float_z_buffer b buffer_data ownership)

/-- `n` successive `IMB_refImBuf` calls. -/
def refNTimes : Nat → ImBuf → ImBuf
  | 0, b => b
  | n + 1, b => IMB_refImBuf (refNTimes n b)

/-- `n` successive `IMB_freeImBuf` calls; once teardown happens the object
is gone, so the chain stops at `freed`. -/
def freeNTimes : Nat → ImBuf → FreeResult
  | 0, b => FreeResult.alive b
  | n + 1, b =>
      match IMB_freeImBuf b with
      | FreeResult.alive b2 => freeNTimes n b2
      | FreeResult.freed f => FreeResult.freed f

/-- The flags/slots invariant of the spec's data model: each of the five
flag bits is set iff the corresponding slot's data pointer is non-null. -/
def flagInv (ibuf : ImBuf) : Bool :=
  (ibuf.flags.has_rect == ibuf.byte_buffer.data.isSome) &&
  (ibuf.flags.has_rectfloat == ibuf.float_buffer.data.isSome) &&
  (ibuf.flags.has_zbuf == ibuf.z_buffer.data.isSome) &&
  (ibuf.flags.has_zbuffloat == ibuf.float_z_buffer.data.isSome) &&
  (ibuf.flags.has_mem == ibuf.encoded_buffer.data.isSome)

/-- The slot-ownership invariant of the spec's data model: when a shared
handle is present the slot's own `ownership` is `IB_DO_NOT_TAKE_OWNERSHIP`
(the control block owns the memory). -/
def slotWF (buffer : ImBufBuffer) : Bool :=
  buffer.implicit_sharing.isNone ||
    (buffer.ownership == IB_DO_NOT_TAKE_OWNERSHIP)

/-! Concrete inputs used by the witnesses and counterexamples below. -/

/-- An allocator that grants every request. -/
def allocAlways : AllocOracle := fun _ => true

/-- An allocator that refuses every request. -/
def allocNever : AllocOracle := fun _ => false

/-- A small fully initialized 1x1 aggregate with no populated slot (the
state `IMB_initImBuf` produces for an empty flag set). -/
def sampleImBuf : ImBuf := initImBufBase 1 1 32

/-- A 1x1 aggregate whose float and float-depth slots are populated and
owned, with consistent flags; its float-depth contents are `[9, 9, 9, 9]`. -/
def dupSrc : ImBuf :=
  { sampleImBuf with
    float_buffer := { data := some (List.replicate 16 3)
                      ownership := IB_TAKE_OWNERSHIP
                      implicit_sharing := none }
    float_z_buffer := { data := some [9, 9, 9, 9]
                        ownership := IB_TAKE_OWNERSHIP
                        implicit_sharing := none }
    flags := { noFlags with has_rectfloat := true, has_zbuffloat := true }
    refcounter := 5 }

/-- An aggregate whose byte slot holds borrowed (non-owned) memory, with
consistent flags. -/
def nonOwnedByteImBuf : ImBuf :=
  { sampleImBuf with
    byte_buffer := { data := some [1, 2, 3]
                     ownership := IB_DO_NOT_TAKE_OWNERSHIP
                     implicit_sharing := none }
    flags := { noFlags with has_rect := true } }

/-- An aggregate whose byte slot holds owned memory, with consistent
flags. -/
def ownedByteImBuf : ImBuf :=
  { sampleImBuf with
    byte_buffer := { data := some [4, 5]
                     ownership := IB_TAKE_OWNERSHIP
                     implicit_sharing := none }
    flags := { noFlags with has_rect := true } }

/-- An aggregate whose encoded slot has a null data pointer but an in-use
size (5) exceeding its capacity (0). -/
def inconsistentEncodedImBuf : ImBuf :=
  { sampleImBuf with encoded_size := 5 }

/-- A non-owned slot holding one byte, shared through handle 7. -/
def sharedSlot : ImBufBuffer :=
  { data := some [1], ownership := IB_DO_NOT_TAKE_OWNERSHIP,
    implicit_sharing := some 7 }

/-- An owned slot holding one byte `[5]`. -/
def ownedSlot : ImBufBuffer :=
  { data := some [5], ownership := IB_TAKE_OWNERSHIP,
    implicit_sharing := none }

/-!  Theorems settling the claims. -/

/-- Claim C2, counterexample: with `x = 2147483647`, `y = 2147483649`,
`channels = 4`, `element_size = 1` the requested byte count
`x * y * channels * element_size = 2^64 - 4` fits the platform size limit,
yet `imb_alloc_pixels` returns null even though the allocator would grant
the request: the guard demands `x * y` strictly below the floored quotient
`SIZE_MAX / (channels * element_size)` and refuses the boundary. -/
theorem C2_counterexample :
    2147483647 * 2147483649 * 4 * 1 ≤ SIZE_MAX ∧
    imb_alloc_pixels allocAlways 2147483647 2147483649 4 1 = none := by
  constructor
  · decide
  · decide

/-- Claim C2, amended: when the allocator grants the request,
`imb_alloc_pixels` succeeds with zero-initialized memory of exactly
`x * y * channels * element_size` bytes whenever `x * y` is strictly below
`SIZE_MAX / (channels * element_size)` (integer division); every
combination whose byte count exceeds `SIZE_MAX` is refused with a null
result (boundary combinations whose product fits but whose `x * y` equals
the floored quotient are also refused, per the counterexample). -/
theorem C2_amended (alloc : AllocOracle) (x y channels typesize : Nat)
    (hct0 : 0 < channels * typesize) (hct : channels * typesize < UINT64_MOD)
    (halloc : ∀ n, alloc n = true) :
    (x * y < SIZE_MAX / (channels * typesize) →
      imb_alloc_pixels alloc x y channels typesize =
        some (List.replicate (x * y * channels * typesize) 0)) ∧
    (SIZE_MAX < x * y * channels * typesize →
      imb_alloc_pixels alloc x y channels typesize = none) := by
  have hmod : channels * typesize % UINT64_MOD = channels * typesize :=
    Nat.mod_eq_of_lt hct
  constructor
  · intro hlt
    have hle : (x * y + 1) * (channels * typesize) ≤ SIZE_MAX :=
      (Nat.le_div_iff_mul_le hct0).mp (Nat.succ_le_of_lt hlt)
    have hsize : x * y * channels * typesize < UINT64_MOD := by
      have h1 : x * y * (channels * typesize) ≤ SIZE_MAX :=
        le_trans (Nat.mul_le_mul_right _ (Nat.le_succ _)) hle
      have h2 : SIZE_MAX < UINT64_MOD := by decide
      calc x * y * channels * typesize
          = x * y * (channels * typesize) := by ring
        _ ≤ SIZE_MAX := h1
        _ < UINT64_MOD := h2
    simp [imb_alloc_pixels, hmod, hlt, MEM_callocN, halloc,
      Nat.mod_eq_of_lt hsize]
  · intro hover
    have hnlt : ¬ x * y < SIZE_MAX / (channels * typesize) := by
      intro hlt
      have hle : (x * y + 1) * (channels * typesize) ≤ SIZE_MAX :=
        (Nat.le_div_iff_mul_le hct0).mp (Nat.succ_le_of_lt hlt)
      have h1 : x * y * (channels * typesize) ≤ SIZE_MAX :=
        le_trans (Nat.mul_le_mul_right _ (Nat.le_succ _)) hle
      have h2 : x * y * channels * typesize ≤ SIZE_MAX := by
        calc x * y * channels * typesize
            = x * y * (channels * typesize) := by ring
          _ ≤ SIZE_MAX := h1
      omega
    simp [imb_alloc_pixels, hmod, hnlt]

/-- Claim C2 witness: the amended theorem evaluated at
`(x, y, channels, element_size) = (2, 3, 4, 1)` with an always-granting
allocator. -/
theorem C2_amended_witness :
    imb_alloc_pixels allocAlways 2 3 4 1 = some (List.replicate 24 0) := by
  have h := C2_amended allocAlways 2 3 4 1 (by decide) (by decide)
    (fun _ => rfl)
  exact h.1 (by decide)

/-- Claim C8, counterexample: when the allocator refuses, a slot that
previously held data is *not* left untouched — `imb_alloc_buffer` has
already overwritten its data pointer with the null allocation result. -/
theorem C8_counterexample :
    (imb_alloc_buffer allocNever ownedSlot 1 1 1 1).1 = false ∧
    (imb_alloc_buffer allocNever ownedSlot 1 1 1 1).2 ≠ ownedSlot ∧
    (imb_alloc_buffer allocNever ownedSlot 1 1 1 1).2.data = none := by
  refine ⟨by decide, by decide, by decide⟩

/-- Claim C8, amended: when `imb_alloc_buffer`'s underlying pixel
allocation fails, the slot's data pointer is overwritten with null while
its ownership and shared handle are left unchanged, and `false` is
returned; on success the slot holds the freshly allocated zero-initialized
region with `ownership = IB_TAKE_OWNERSHIP` and no shared handle, and
`true` is returned. -/
theorem C8_amended (alloc : AllocOracle) (buffer : ImBufBuffer)
    (x y channels typesize : Nat) :
    (imb_alloc_pixels alloc x y channels typesize = none →
      imb_alloc_buffer alloc buffer x y channels typesize =
        (false, { buffer with data := none })) ∧
    (∀ d, imb_alloc_pixels alloc x y channels typesize = some d →
      imb_alloc_buffer alloc buffer x y channels typesize =
        (true, { data := some d
                 ownership := IB_TAKE_OWNERSHIP
                 implicit_sharing := none })) := by
  constructor
  · intro h
    simp [imb_alloc_buffer, h]
  · intro d h
    simp [imb_alloc_buffer, h]

/-- Claim C8 witness: the amended theorem's failure branch evaluated on an
owned slot holding `[5]` with a refusing allocator. -/
theorem C8_witness :
    imb_alloc_buffer allocNever ownedSlot 1 1 1 1 =
      (false, { ownedSlot with data := none }) :=
  (C8_amended allocNever ownedSlot 1 1 1 1).1 (by decide)

/-- Claim C9: `imb_make_writeable_buffer` is idempotent, never changes the
buffer contents, and (for slot states satisfying the data model's
ownership invariant `slotWF`) leaves a non-empty slot exclusively owned
with no shared handle. -/
theorem C9_make_writable_idempotent (buffer : ImBufBuffer)
    (hwf : slotWF buffer = true) :
    imb_make_writeable_buffer (imb_make_writeable_buffer buffer) =
      imb_make_writeable_buffer buffer ∧
    (imb_make_writeable_buffer buffer).data = buffer.data ∧
    (buffer.data ≠ none →
      (imb_make_writeable_buffer buffer).ownership = IB_TAKE_OWNERSHIP ∧
      (imb_make_writeable_buffer buffer).implicit_sharing = none) := by
  obtain ⟨d, o, s⟩ := buffer
  cases d <;> cases o <;> cases s <;>
    simp_all [imb_make_writeable_buffer, slotWF]

/-- Claim C9 witness: the theorem evaluated on a shared, non-owned slot
holding one byte. -/
theorem C9_witness :
    imb_make_writeable_buffer (imb_make_writeable_buffer sharedSlot) =
      imb_make_writeable_buffer sharedSlot ∧
    (imb_make_writeable_buffer sharedSlot).data = sharedSlot.data ∧
    ((imb_make_writeable_buffer sharedSlot).ownership = IB_TAKE_OWNERSHIP ∧
     (imb_make_writeable_buffer sharedSlot).implicit_sharing = none) := by
  have h := C9_make_writable_idempotent sharedSlot (by decide)
  exact ⟨h.1, h.2.1, h.2.2 (by decide)⟩

/-- Claim C10, counterexample: an aggregate whose encoded slot has a null
data pointer but an in-use size (5) exceeding its capacity (0): growth
fails and installs nothing even though the allocator grants every
request. -/
theorem C10_counterexample :
    inconsistentEncodedImBuf.encoded_buffer.data = none ∧
    imb_enlargeencodedbufferImBuf allocAlways inconsistentEncodedImBuf =
      (false, inconsistentEncodedImBuf) := by
  refine ⟨rfl, by decide⟩

/-- Claim C10, amended: for every aggregate whose encoded slot has a null
data pointer, whose in-use size does not exceed its capacity and whose
capacity stays below `2^31` (so the `uint` doubling does not wrap), a
growth request that allocates successfully forces the in-use size to zero,
installs a freshly allocated zero-initialized owned buffer of capacity
`max (2 * capacity) 10000`, updates the capacity bookkeeping and sets the
`IB_mem` flag. -/
theorem C10_amended (alloc : AllocOracle) (ibuf : ImBuf)
    (hdata : ibuf.encoded_buffer.data = none)
    (hsz : ibuf.encoded_size ≤ ibuf.encoded_buffer_size)
    (hcap : ibuf.encoded_buffer_size < 2 ^ 31)
    (halloc : alloc (enlarge_newsize ibuf.encoded_buffer_size) = true) :
    imb_enlargeencodedbufferImBuf alloc ibuf =
      (true, { ibuf with
               encoded_size := 0
               encoded_buffer :=
                 { data := some (List.replicate
                     (max (2 * ibuf.encoded_buffer_size) 10000) 0)
                   ownership := IB_TAKE_OWNERSHIP
                   implicit_sharing := none }
               encoded_buffer_size := max (2 * ibuf.encoded_buffer_size) 10000
               flags := { ibuf.flags with has_mem := true } }) := by
  have hwrap : 2 * ibuf.encoded_buffer_size % UINT32_MOD =
      2 * ibuf.encoded_buffer_size := by
    apply Nat.mod_eq_of_lt
    unfold UINT32_MOD
    omega
  have hns : enlarge_newsize ibuf.encoded_buffer_size =
      max (2 * ibuf.encoded_buffer_size) 10000 := by
    simp only [enlarge_newsize, hwrap]
    split <;> omega
  have hnsmall : max (2 * ibuf.encoded_buffer_size) 10000 < UINT64_MOD := by
    unfold UINT64_MOD
    omega
  have hguard : ¬ ibuf.encoded_buffer_size < ibuf.encoded_size := by omega
  rw [hns] at halloc
  have hpix : imb_alloc_pixels alloc
      (max (2 * ibuf.encoded_buffer_size) 10000) 1 1 1 =
      some (List.replicate (max (2 * ibuf.encoded_buffer_size) 10000) 0) := by
    have hcond : max (2 * ibuf.encoded_buffer_size) 10000 * 1 <
        SIZE_MAX / (1 * 1 % UINT64_MOD) := by
      have h11 : (1 : Nat) * 1 % UINT64_MOD = 1 := by decide
      rw [h11]
      simp only [Nat.div_one, Nat.mul_one]
      unfold SIZE_MAX
      unfold UINT64_MOD at hnsmall
      omega
    have hsz2 : max (2 * ibuf.encoded_buffer_size) 10000 * 1 * 1 * 1 %
        UINT64_MOD = max (2 * ibuf.encoded_buffer_size) 10000 := by
      rw [Nat.mul_one, Nat.mul_one, Nat.mul_one]
      exact Nat.mod_eq_of_lt hnsmall
    unfold imb_alloc_pixels MEM_callocN
    rw [if_pos hcond, hsz2, halloc]
    simp
  simp [imb_enlargeencodedbufferImBuf, hguard, imb_alloc_buffer, hns, hpix,
    hdata, emptyBuffer]

/-- Claim C10 witness: the amended theorem evaluated on the fresh 1x1
aggregate (capacity 0, in-use size 0, null encoded data) with an
always-granting allocator. -/
theorem C10_witness :
    imb_enlargeencodedbufferImBuf allocAlways sampleImBuf =
      (true, { sampleImBuf with
               encoded_size := 0
               encoded_buffer :=
                 { data := some (List.replicate 10000 0)
                   ownership := IB_TAKE_OWNERSHIP
                   implicit_sharing := none }
               encoded_buffer_size := 10000
               flags := { sampleImBuf.flags with has_mem := true } }) := by
  have h := C10_amended allocAlways sampleImBuf rfl (by decide) (by decide) rfl
  exact h

/-- Claim C4: the depth-buffer helper `addzbufImBuf` returns `false` even
when the depth-slot allocation succeeds (slot populated, `IB_zbuf` set);
consequently `imb_addrectImBuf` with `planes > 32` and `IMB_initImBuf` with
the depth flag report failure even though every allocation succeeded. -/
theorem C4_addzbuf_reports_false (alloc : AllocOracle) :
    (∀ ibuf d, imb_alloc_pixels alloc ibuf.x ibuf.y 1 4 = some d →
      (addzbufImBuf alloc ibuf).1 = false ∧
      (addzbufImBuf alloc ibuf).2.z_buffer.data = some d ∧
      (addzbufImBuf alloc ibuf).2.flags.has_zbuf = true) ∧
    (∀ ibuf db d, 32 < ibuf.planes →
      imb_alloc_pixels alloc ibuf.x ibuf.y 4 1 = some db →
      imb_alloc_pixels alloc ibuf.x ibuf.y 1 4 = some d →
      (imb_addrectImBuf alloc ibuf).1 = false ∧
      (imb_addrectImBuf alloc ibuf).2.byte_buffer.data = some db ∧
      (imb_addrectImBuf alloc ibuf).2.z_buffer.data = some d ∧
      (imb_addrectImBuf alloc ibuf).2.flags.has_zbuf = true) ∧
    (∀ x y planes flags d, flags.has_rect = false →
      flags.has_rectfloat = false → flags.has_zbuf = true →
      imb_alloc_pixels alloc x y 1 4 = some d →
      (IMB_initImBuf alloc x y planes flags).1 = false ∧
      (IMB_initImBuf alloc x y planes flags).2.z_buffer.data = some d ∧
      (IMB_initImBuf alloc x y planes flags).2.flags.has_zbuf = true) := by
  refine ⟨?_, ?_, ?_⟩
  · intro ibuf d hz
    simp [addzbufImBuf, IMB_freezbufImBuf, imb_free_buffer, imb_alloc_buffer,
      hz]
  · intro ibuf db d hp hb hz
    simp [imb_addrectImBuf, addzbufImBuf, IMB_freezbufImBuf, imb_free_buffer,
      imb_alloc_buffer, hb, hz, hp]
  · intro x y planes flags d h1 h2 h3 hz
    simp [IMB_initImBuf, initStep, h1, h2, h3, addzbufImBuf,
      IMB_freezbufImBuf, imb_free_buffer, imb_alloc_buffer, initImBufBase, hz]

/-- Claim C4 witness: the theorem's first part evaluated on the fresh 1x1
aggregate with an always-granting allocator. -/
theorem C4_witness :
    (addzbufImBuf allocAlways sampleImBuf).1 = false ∧
    (addzbufImBuf allocAlways sampleImBuf).2.z_buffer.data =
      some (List.replicate 4 0) ∧
    (addzbufImBuf allocAlways sampleImBuf).2.flags.has_zbuf = true := by
  exact (C4_addzbuf_reports_false allocAlways).1 sampleImBuf
    (List.replicate 4 0) (by decide)

/-- `refNTimes` only increments the reference count. -/
theorem refNTimes_eq (n : Nat) (ibuf : ImBuf) :
    refNTimes n ibuf = { ibuf with refcounter := ibuf.refcounter + n } := by
  induction n with
  | zero => rfl
  | succ n ih =>
      simp [refNTimes, IMB_refImBuf, ih]
      omega

/-- Unfolding of `freeNTimes` at a successor. -/
theorem freeNTimes_succ (n : Nat) (ibuf : ImBuf) :
    freeNTimes (n + 1) ibuf =
      match IMB_freeImBuf ibuf with
      | FreeResult.alive b2 => freeNTimes n b2
      | FreeResult.freed f => FreeResult.freed f := rfl

/-- A release on a positive count only decrements it. -/
theorem IMB_freeImBuf_pos (k : Nat) (ibuf : ImBuf)
    (h : ibuf.refcounter = k + 1) :
    IMB_freeImBuf ibuf = FreeResult.alive { ibuf with refcounter := k } := by
  simp [IMB_freeImBuf, h]

/-- Releasing as many times as the current count decrements it back to
zero, keeping the object alive and otherwise untouched. -/
theorem freeNTimes_alive (k : Nat) : ∀ ibuf : ImBuf, ibuf.refcounter = k →
    freeNTimes k ibuf = FreeResult.alive { ibuf with refcounter := 0 } := by
  induction k with
  | zero =>
      intro ibuf h
      simp only [freeNTimes]
      rw [← h]
  | succ k ih =>
      intro ibuf h
      rw [freeNTimes_succ, IMB_freeImBuf_pos k ibuf h]
      dsimp only
      rw [ih { ibuf with refcounter := k } (by simp)]

/-- One more release than the current count triggers full teardown. -/
theorem freeNTimes_freed (k : Nat) : ∀ ibuf : ImBuf, ibuf.refcounter = k →
    freeNTimes (k + 1) ibuf =
      FreeResult.freed (IMB_freeImBuf_teardown { ibuf with refcounter := 0 }) := by
  induction k with
  | zero =>
      intro ibuf h
      rw [freeNTimes_succ]
      have hstep : IMB_freeImBuf ibuf =
          FreeResult.freed (IMB_freeImBuf_teardown ibuf) := by
        simp [IMB_freeImBuf, h]
      rw [hstep, ← h]
  | succ k ih =>
      intro ibuf h
      rw [freeNTimes_succ, IMB_freeImBuf_pos k ibuf h]
      dsimp only
      rw [ih { ibuf with refcounter := k } (by simp)]

/-- Claim C1: starting from a zero reference count, `N` Retains followed by
`N` Releases leave the object alive and bit-for-bit identical (count
restored, no slot freed); the `(N+1)`-th Release — the one observing a zero
count — performs full teardown: every slot reset, every mipmap level
released, metadata, color-management cache and third-party payload freed,
and the aggregate itself freed (the `FreeResult.freed` constructor).  The
bound `N < 2^31` keeps the C `int` counter away from signed overflow. -/
theorem C1_retain_release (ibuf : ImBuf) (N : Nat)
    (h0 : ibuf.refcounter = 0) (hN : N < 2 ^ 31) :
    freeNTimes N (refNTimes N ibuf) = FreeResult.alive ibuf ∧
    freeNTimes (N + 1) (refNTimes N ibuf) =
      FreeResult.freed (IMB_freeImBuf_teardown ibuf) ∧
    (IMB_freeImBuf_teardown ibuf).byte_buffer = emptyBuffer ∧
    (IMB_freeImBuf_teardown ibuf).float_buffer = emptyBuffer ∧
    (IMB_freeImBuf_teardown ibuf).z_buffer = emptyBuffer ∧
    (IMB_freeImBuf_teardown ibuf).float_z_buffer = emptyBuffer ∧
    (IMB_freeImBuf_teardown ibuf).encoded_buffer = emptyBuffer ∧
    (IMB_freeImBuf_teardown ibuf).mipmap =
      List.replicate IMB_MIPMAP_LEVELS none ∧
    (IMB_freeImBuf_teardown ibuf).miptot = 0 ∧
    (IMB_freeImBuf_teardown ibuf).metadata = none ∧
    (IMB_freeImBuf_teardown ibuf).colormanage_cache = none ∧
    (IMB_freeImBuf_teardown ibuf).dds_data = none := by
  have href : refNTimes N ibuf = { ibuf with refcounter := N } := by
    rw [refNTimes_eq, h0, Nat.zero_add]
  have hzero : ({ ibuf with refcounter := 0 } : ImBuf) = ibuf := by
    rw [← h0]
  refine ⟨?_, ?_, ?_, ?_, ?_, ?_, ?_, ?_, ?_, ?_, ?_, ?_⟩
  · rw [href, freeNTimes_alive N _ (by simp)]
    simp [hzero]
  · rw [href, freeNTimes_freed N _ (by simp)]
    simp [hzero]
  all_goals
    simp [IMB_freeImBuf_teardown, imb_freerectImbuf_all, imb_freerectImBuf,
      imb_freerectfloatImBuf, IMB_freezbufImBuf, IMB_freezbuffloatImBuf,
      freeencodedbufferImBuf, imb_free_buffer, imb_freemipmapImBuf,
      emptyBuffer]

/-- Claim C1 witness: the theorem evaluated at `N = 2` on the fresh 1x1
aggregate. -/
theorem C1_witness :
    freeNTimes 2 (refNTimes 2 sampleImBuf) = FreeResult.alive sampleImBuf ∧
    freeNTimes (2 + 1) (refNTimes 2 sampleImBuf) =
      FreeResult.freed (IMB_freeImBuf_teardown sampleImBuf) := by
  have h := C1_retain_release sampleImBuf 2 rfl (by decide)
  exact ⟨h.1, h.2.1⟩

/-- A small single-row allocation (`y = channels = typesize = 1`) passes
the overflow guard and succeeds whenever the allocator grants it. -/
theorem imb_alloc_pixels_small (alloc : AllocOracle) (n : Nat)
    (hn : n < UINT32_MOD) (halloc : alloc n = true) :
    imb_alloc_pixels alloc n 1 1 1 = some (List.replicate n 0) := by
  have hcond : n * 1 < SIZE_MAX / (1 * 1 % UINT64_MOD) := by
    have h1 : (1 : Nat) * 1 % UINT64_MOD = 1 := by decide
    rw [h1, Nat.div_one, Nat.mul_one]
    unfold SIZE_MAX
    unfold UINT32_MOD at hn
    omega
  have hsz : n * 1 * 1 * 1 % UINT64_MOD = n := by
    rw [Nat.mul_one, Nat.mul_one, Nat.mul_one]
    apply Nat.mod_eq_of_lt
    unfold UINT64_MOD
    unfold UINT32_MOD at hn
    omega
  unfold imb_alloc_pixels MEM_callocN
  rw [if_pos hcond, hsz, halloc]
  simp

/-- Successful encoded-slot growth when the old region is non-null: the
in-use bytes are copied into the fresh zeroed region, the capacity becomes
`max (2 * capacity) 10000`, and `IB_mem` is set. -/
theorem enlarge_success_some (alloc : AllocOracle) (ibuf : ImBuf)
    (l : List Nat) (hdata : ibuf.encoded_buffer.data = some l)
    (hsz : ibuf.encoded_size ≤ ibuf.encoded_buffer_size)
    (hcap : ibuf.encoded_buffer_size < 2 ^ 31)
    (halloc : alloc (enlarge_newsize ibuf.encoded_buffer_size) = true) :
    imb_enlargeencodedbufferImBuf alloc ibuf =
      (true, { ibuf with
               encoded_buffer :=
                 { data := some (memcpyBytes
                     (List.replicate
                       (max (2 * ibuf.encoded_buffer_size) 10000) 0)
                     l ibuf.encoded_size)
                   ownership := IB_TAKE_OWNERSHIP
                   implicit_sharing := none }
               encoded_buffer_size := max (2 * ibuf.encoded_buffer_size) 10000
               flags := { ibuf.flags with has_mem := true } }) := by
  have hwrap : 2 * ibuf.encoded_buffer_size % UINT32_MOD =
      2 * ibuf.encoded_buffer_size := by
    apply Nat.mod_eq_of_lt
    unfold UINT32_MOD
    omega
  have hns : enlarge_newsize ibuf.encoded_buffer_size =
      max (2 * ibuf.encoded_buffer_size) 10000 := by
    simp only [enlarge_newsize, hwrap]
    split <;> omega
  have hnsmall : max (2 * ibuf.encoded_buffer_size) 10000 < UINT32_MOD := by
    unfold UINT32_MOD
    omega
  have hguard : ¬ ibuf.encoded_buffer_size < ibuf.encoded_size := by omega
  rw [hns] at halloc
  have hpix := imb_alloc_pixels_small alloc
    (max (2 * ibuf.encoded_buffer_size) 10000) hnsmall halloc
  simp [imb_enlargeencodedbufferImBuf, hguard, imb_alloc_buffer, hns, hpix,
    hdata, emptyBuffer, bufMemcpy]

/-- The grown capacity always fits a C `uint`. -/
theorem enlarge_newsize_lt (cap : Nat) : enlarge_newsize cap < UINT32_MOD := by
  unfold enlarge_newsize
  have h2 : 2 * cap % UINT32_MOD < UINT32_MOD := Nat.mod_lt _ (by decide)
  dsimp only
  split
  · decide
  · exact h2

/-- Claim C6: encoded-buffer growth.  From capacity 0 (and the matching
in-use size 0) two growths yield capacities 10000 and 20000; a growth on a
populated slot preserves the in-use size and all in-use bytes; an in-use
size exceeding the capacity fails loudly without modifying the aggregate;
and an allocation failure also leaves the aggregate completely
untouched. -/
theorem C6_encoded_growth :
    (∀ (alloc : AllocOracle) (ibuf : ImBuf), (∀ n, alloc n = true) →
      ibuf.encoded_buffer_size = 0 → ibuf.encoded_size = 0 →
      (imb_enlargeencodedbufferImBuf alloc ibuf).1 = true ∧
      (imb_enlargeencodedbufferImBuf alloc ibuf).2.encoded_buffer_size =
        10000 ∧
      (imb_enlargeencodedbufferImBuf alloc
        (imb_enlargeencodedbufferImBuf alloc ibuf).2).1 = true ∧
      (imb_enlargeencodedbufferImBuf alloc
        (imb_enlargeencodedbufferImBuf alloc ibuf).2).2.encoded_buffer_size =
        20000) ∧
    (∀ (alloc : AllocOracle) (ibuf : ImBuf) (l : List Nat),
      (∀ n, alloc n = true) →
      ibuf.encoded_buffer.data = some l →
      ibuf.encoded_size ≤ ibuf.encoded_buffer_size →
      ibuf.encoded_buffer_size < 2 ^ 31 →
      ibuf.encoded_size ≤ l.length →
      (imb_enlargeencodedbufferImBuf alloc ibuf).1 = true ∧
      (imb_enlargeencodedbufferImBuf alloc ibuf).2.encoded_size =
        ibuf.encoded_size ∧
      Option.map (List.take ibuf.encoded_size)
          (imb_enlargeencodedbufferImBuf alloc ibuf).2.encoded_buffer.data =
        some (List.take ibuf.encoded_size l)) ∧
    (∀ (alloc : AllocOracle) (ibuf : ImBuf),
      ibuf.encoded_buffer_size < ibuf.encoded_size →
      imb_enlargeencodedbufferImBuf alloc ibuf = (false, ibuf)) ∧
    (∀ (alloc : AllocOracle) (ibuf : ImBuf),
      alloc (enlarge_newsize ibuf.encoded_buffer_size) = false →
      imb_enlargeencodedbufferImBuf alloc ibuf = (false, ibuf)) := by
  refine ⟨?_, ?_, ?_, ?_⟩
  · intro alloc ibuf halloc hcap hes
    cases hdat : ibuf.encoded_buffer.data with
    | none =>
        have h1 := C10_amended alloc ibuf hdat (by omega) (by omega)
          (halloc _)
        rw [hcap] at h1
        norm_num at h1
        rw [h1]
        have h2 := enlarge_success_some alloc
          ((imb_enlargeencodedbufferImBuf alloc ibuf).2)
          (List.replicate 10000 0) (by rw [h1]) (by rw [h1]; norm_num)
          (by rw [h1]; norm_num) (halloc _)
        rw [h1] at h2
        norm_num at h2
        dsimp only
        rw [h2]
        simp [memcpyBytes]
    | some l =>
        have h1 := enlarge_success_some alloc ibuf l hdat (by omega)
          (by omega) (halloc _)
        rw [hcap] at h1
        norm_num at h1
        rw [hes] at h1
        simp only [memcpyBytes, List.take_zero, List.drop_zero,
          List.nil_append] at h1
        rw [h1]
        have h2 := enlarge_success_some alloc
          ((imb_enlargeencodedbufferImBuf alloc ibuf).2)
          (List.replicate 10000 0) (by rw [h1]) (by rw [h1]; norm_num)
          (by rw [h1]; norm_num) (halloc _)
        rw [h1] at h2
        norm_num at h2
        dsimp only
        rw [h2]
        simp [memcpyBytes]
  · intro alloc ibuf l halloc hdat hsz hcap hlen
    have h1 := enlarge_success_some alloc ibuf l hdat hsz hcap (halloc _)
    rw [h1]
    refine ⟨rfl, rfl, ?_⟩
    have htl : (List.take ibuf.encoded_size l).length = ibuf.encoded_size := by
      rw [List.length_take]
      omega
    have h3 : List.take ibuf.encoded_size
        (memcpyBytes (List.replicate
          (max (2 * ibuf.encoded_buffer_size) 10000) 0) l
          ibuf.encoded_size) = List.take ibuf.encoded_size l := by
      unfold memcpyBytes
      rw [List.take_append_eq_append_take, htl, Nat.sub_self]
      simp [List.take_take]
    simp [h3]
  · intro alloc ibuf h
    simp [imb_enlargeencodedbufferImBuf, h]
  · intro alloc ibuf halloc
    by_cases hguard : ibuf.encoded_buffer_size < ibuf.encoded_size
    · simp [imb_enlargeencodedbufferImBuf, hguard]
    · have hnsmall := enlarge_newsize_lt ibuf.encoded_buffer_size
      have hpix : imb_alloc_pixels alloc
          (enlarge_newsize ibuf.encoded_buffer_size) 1 1 1 = none := by
        have hsz : enlarge_newsize ibuf.encoded_buffer_size * 1 * 1 * 1 %
            UINT64_MOD = enlarge_newsize ibuf.encoded_buffer_size := by
          rw [Nat.mul_one, Nat.mul_one, Nat.mul_one]
          apply Nat.mod_eq_of_lt
          unfold UINT64_MOD
          unfold UINT32_MOD at hnsmall
          omega
        unfold imb_alloc_pixels MEM_callocN
        rw [hsz, halloc]
        simp
      simp [imb_enlargeencodedbufferImBuf, hguard, imb_alloc_buffer, hpix]

/-- Claim C6 witness: the first part of the theorem evaluated on the fresh
1x1 aggregate with an always-granting allocator. -/
theorem C6_witness :
    (imb_enlargeencodedbufferImBuf allocAlways sampleImBuf).1 = true ∧
    (imb_enlargeencodedbufferImBuf allocAlways
      sampleImBuf).2.encoded_buffer_size = 10000 ∧
    (imb_enlargeencodedbufferImBuf allocAlways
      (imb_enlargeencodedbufferImBuf allocAlways
        sampleImBuf).2).2.encoded_buffer_size = 20000 := by
  have h := C6_encoded_growth.1 allocAlways sampleImBuf (fun _ => rfl) rfl rfl
  exact ⟨h.1, h.2.1, h.2.2.2⟩

/-- Claim C5, counterexample: Retain (`IMB_refImBuf`) and the steal
operations have no null check — calling them with a null aggregate pointer
dereferences it instead of returning, so "every public entry point is a
safe no-op on null" fails at the concrete input `none`. -/
theorem C5_counterexample :
    IMB_refImBuf_entry none = Except.error () ∧
    IMB_steal_byte_buffer_entry none = Except.error () := by
  exact ⟨rfl, rfl⟩

/-- Claim C5, amended: Release, MakeSingleUser, the per-slot free
operations and the slot allocate/grow operations null-check the aggregate
pointer and return immediately as safe no-ops; but Retain, the steal
operations, the make-writable operations and the assign operations perform
no null check and dereference the null pointer. -/
theorem C5_amended (alloc : AllocOracle) (channels : Nat)
    (buffer_data : Option (List Nat)) (sharing : Option Nat)
    (ownership : ImBufOwnership) :
    IMB_freeImBuf_entry none = Except.ok none ∧
    IMB_makeSingleUser_entry alloc none = Except.ok none ∧
    imb_freerectImBuf_entry none = Except.ok none ∧
    imb_freerectfloatImBuf_entry none = Except.ok none ∧
    IMB_freezbufImBuf_entry none = Except.ok none ∧
    IMB_freezbuffloatImBuf_entry none = Except.ok none ∧
    freeencodedbufferImBuf_entry none = Except.ok none ∧
    addzbufImBuf_entry alloc none = Except.ok (false, none) ∧
    addzbuffloatImBuf_entry alloc none = Except.ok (false, none) ∧
    imb_addencodedbufferImBuf_entry alloc none = Except.ok (false, none) ∧
    imb_enlargeencodedbufferImBuf_entry alloc none =
      Except.ok (false, none) ∧
    imb_addrectfloatImBuf_entry alloc channels none =
      Except.ok (false, none) ∧
    imb_addrectImBuf_entry alloc none = Except.ok (false, none) ∧
    IMB_refImBuf_entry none = Except.error () ∧
    IMB_steal_byte_buffer_entry none = Except.error () ∧
    IMB_steal_float_buffer_entry none = Except.error () ∧
    IMB_steal_encoded_buffer_entry none = Except.error () ∧
    IMB_make_writable_byte_buffer_entry none = Except.error () ∧
    IMB_make_writable_float_buffer_entry none = Except.error () ∧
    IMB_assign_shared_byte_buffer_entry buffer_data sharing none =
      Except.error () ∧
    IMB_assign_shared_float_buffer_entry buffer_data sharing none =
      Except.error () ∧
    IMB_assign_shared_float_z_buffer_entry buffer_data sharing none =
      Except.error () ∧
    IMB_assign_byte_buffer_entry buffer_data ownership none =
      Except.error () ∧
    IMB_assign_float_buffer_entry buffer_data ownership none =
      Except.error () ∧
    IMB_assign_z_buffer_entry buffer_data ownership none =
      Except.error () ∧
    IMB_assign_float_z_buffer_entry buffer_data ownership none =
      Except.error () := by
  refine ⟨rfl, rfl, rfl, rfl, rfl, rfl, rfl, rfl, rfl, rfl, rfl, rfl, rfl,
    rfl, rfl, rfl, rfl, rfl, rfl, rfl, rfl, rfl, rfl, rfl, rfl, rfl⟩

/-- Claim C3: evaluation of `IMB_dupImBuf` at a source whose float-depth
slot holds the bytes `[9, 9, 9, 9]`: the duplicate's float-depth slot is
the untouched zero-fill of its fresh allocation, *not* a copy of the
source's bytes (the `IB_zbuffloat` branch of the source copies
`float_buffer` instead of `float_z_buffer`), while the duplicate's
reference count is 0 and its float slot is copied correctly. -/
theorem C3_dup_zbuffloat_not_copied :
    (IMB_dupImBuf allocAlways dupSrc).map (fun d => d.float_z_buffer.data) =
      some (some (List.replicate 4 0)) ∧
    dupSrc.float_z_buffer.data = some [9, 9, 9, 9] ∧
    (IMB_dupImBuf allocAlways dupSrc).map (fun d => d.float_z_buffer.data) ≠
      some dupSrc.float_z_buffer.data ∧
    (IMB_dupImBuf allocAlways dupSrc).map (fun d => d.float_buffer.data) =
      some dupSrc.float_buffer.data ∧
    (IMB_dupImBuf allocAlways dupSrc).map (fun d => d.refcounter) =
      some 0 := by
  refine ⟨by decide, rfl, by decide, by decide, by decide⟩

/-!  Preservation of the flags/slots invariant, operation by operation. -/

/-- Retain preserves the invariant. -/
theorem flagInv_ref (ibuf : ImBuf) (h : flagInv ibuf = true) :
    flagInv (IMB_refImBuf ibuf) = true := by
  simpa [flagInv, IMB_refImBuf] using h

/-- Teardown re-establishes the invariant unconditionally. -/
theorem flagInv_teardown (ibuf : ImBuf) :
    flagInv (IMB_freeImBuf_teardown ibuf) = true := by
  simp [flagInv, IMB_freeImBuf_teardown, imb_freerectImbuf_all,
    imb_freerectImBuf, imb_freerectfloatImBuf, IMB_freezbufImBuf,
    IMB_freezbuffloatImBuf, freeencodedbufferImBuf, imb_free_buffer,
    imb_freemipmapImBuf]

/-- Release preserves the invariant on both outcomes. -/
theorem flagInv_free (ibuf : ImBuf) (h : flagInv ibuf = true) :
    (∀ b2, IMB_freeImBuf ibuf = FreeResult.alive b2 → flagInv b2 = true) ∧
    (∀ f, IMB_freeImBuf ibuf = FreeResult.freed f → flagInv f = true) := by
  constructor
  · intro b2 hb
    unfold IMB_freeImBuf at hb
    split at hb
    · cases hb
      simpa [flagInv] using h
    · cases hb
  · intro f hf
    unfold IMB_freeImBuf at hf
    split at hf
    · cases hf
    · cases hf
      exact flagInv_teardown ibuf

/-- The per-slot free operations preserve the invariant. -/
theorem flagInv_slot_frees (ibuf : ImBuf) (h : flagInv ibuf = true) :
    flagInv (imb_freerectImBuf ibuf) = true ∧
    flagInv (imb_freerectfloatImBuf ibuf) = true ∧
    flagInv (IMB_freezbufImBuf ibuf) = true ∧
    flagInv (IMB_freezbuffloatImBuf ibuf) = true ∧
    flagInv (freeencodedbufferImBuf ibuf) = true := by
  simp_all [flagInv, imb_freerectImBuf, imb_freerectfloatImBuf,
    IMB_freezbufImBuf, IMB_freezbuffloatImBuf, freeencodedbufferImBuf,
    imb_free_buffer, imb_freemipmapImBuf]

/-- `addzbufImBuf` preserves the invariant (on both outcomes). -/
theorem flagInv_addzbuf (alloc : AllocOracle) (ibuf : ImBuf)
    (h : flagInv ibuf = true) :
    flagInv (addzbufImBuf alloc ibuf).2 = true := by
  cases hp : imb_alloc_pixels alloc ibuf.x ibuf.y 1 4 <;>
    simp_all [flagInv, addzbufImBuf, IMB_freezbufImBuf, imb_free_buffer,
      imb_alloc_buffer]

/-- `addzbuffloatImBuf` preserves the invariant. -/
theorem flagInv_addzbuffloat (alloc : AllocOracle) (ibuf : ImBuf)
    (h : flagInv ibuf = true) :
    flagInv (addzbuffloatImBuf alloc ibuf).2 = true := by
  cases hp : imb_alloc_pixels alloc ibuf.x ibuf.y 1 4 <;>
    simp_all [flagInv, addzbuffloatImBuf, IMB_freezbuffloatImBuf,
      imb_free_buffer, imb_alloc_buffer]

/-- `imb_addencodedbufferImBuf` preserves the invariant. -/
theorem flagInv_addencoded (alloc : AllocOracle) (ibuf : ImBuf)
    (h : flagInv ibuf = true) :
    flagInv (imb_addencodedbufferImBuf alloc ibuf).2 = true := by
  cases hp : imb_alloc_pixels alloc 10000 1 1 1 <;>
    simp_all [flagInv, imb_addencodedbufferImBuf, freeencodedbufferImBuf,
      imb_free_buffer, imb_alloc_buffer]

/-- `imb_enlargeencodedbufferImBuf` preserves the invariant. -/
theorem flagInv_enlarge (alloc : AllocOracle) (ibuf : ImBuf)
    (h : flagInv ibuf = true) :
    flagInv (imb_enlargeencodedbufferImBuf alloc ibuf).2 = true := by
  unfold imb_enlargeencodedbufferImBuf
  split
  · simpa [flagInv] using h
  · cases hp : imb_alloc_pixels alloc
        (enlarge_newsize ibuf.encoded_buffer_size) 1 1 1 <;>
      cases hd : ibuf.encoded_buffer.data <;>
      simp_all [flagInv, imb_alloc_buffer, bufMemcpy, emptyBuffer]

/-- `imb_addrectfloatImBuf` preserves the invariant. -/
theorem flagInv_addrectfloat (alloc : AllocOracle) (ibuf : ImBuf)
    (channels : Nat) (h : flagInv ibuf = true) :
    flagInv (imb_addrectfloatImBuf alloc ibuf channels).2 = true := by
  cases hd : ibuf.float_buffer.data <;>
    cases hp : imb_alloc_pixels alloc ibuf.x ibuf.y channels 4 <;>
      simp_all [flagInv, imb_addrectfloatImBuf, imb_freerectfloatImBuf,
        imb_freemipmapImBuf, imb_free_buffer, imb_alloc_buffer]

/-- `addzbufImBuf` always reports failure. -/
theorem addzbuf_false (alloc : AllocOracle) (ibuf : ImBuf) :
    (addzbufImBuf alloc ibuf).1 = false := by
  unfold addzbufImBuf
  dsimp only
  split <;> rfl

/-- `imb_addrectImBuf` preserves the invariant provided the byte allocation
succeeds or the byte slot was empty (the one failure mode that breaks the
invariant is a refused re-allocation of a populated byte slot). -/
theorem flagInv_addrect (alloc : AllocOracle) (ibuf : ImBuf)
    (h : flagInv ibuf = true)
    (hok : imb_alloc_pixels alloc ibuf.x ibuf.y 4 1 ≠ none ∨
      ibuf.byte_buffer.data = none) :
    flagInv (imb_addrectImBuf alloc ibuf).2 = true := by
  cases hp : imb_alloc_pixels alloc ibuf.x ibuf.y 4 1 with
  | none =>
      rcases hok with hok | hok
      · exact absurd hp hok
      · simp_all [flagInv, imb_addrectImBuf, imb_free_buffer,
          imb_alloc_buffer]
  | some d =>
      by_cases hpl : 32 < ibuf.planes
      · simp only [imb_addrectImBuf, imb_free_buffer, imb_alloc_buffer, hp,
          hpl]
        simp only [if_true]
        apply flagInv_addzbuf
        simp_all [flagInv]
      · have hif : (32 < ibuf.planes) = False := eq_false hpl
        simp only [imb_addrectImBuf, imb_free_buffer, imb_alloc_buffer, hp,
          hif, if_false, if_true]
        simp_all [flagInv]

/-- Stealing preserves the invariant on owned-or-empty slots (the claim's
counterexample shows it breaks on non-owned slots). -/
theorem flagInv_steals (ibuf : ImBuf) (h : flagInv ibuf = true) :
    ((ibuf.byte_buffer.ownership = IB_TAKE_OWNERSHIP ∨
        ibuf.byte_buffer.data = none) →
      flagInv (IMB_steal_byte_buffer ibuf).2 = true) ∧
    ((ibuf.float_buffer.ownership = IB_TAKE_OWNERSHIP ∨
        ibuf.float_buffer.data = none) →
      flagInv (IMB_steal_float_buffer ibuf).2 = true) ∧
    ((ibuf.encoded_buffer.ownership = IB_TAKE_OWNERSHIP ∨
        ibuf.encoded_buffer.data = none) →
      flagInv (IMB_steal_encoded_buffer ibuf).2 = true) := by
  refine ⟨?_, ?_, ?_⟩
  · intro hok
    cases hd : ibuf.byte_buffer.data <;>
      cases ho : ibuf.byte_buffer.ownership <;>
        simp_all [flagInv, IMB_steal_byte_buffer, imb_steal_buffer_data]
  · intro hok
    cases hd : ibuf.float_buffer.data <;>
      cases ho : ibuf.float_buffer.ownership <;>
        simp_all [flagInv, IMB_steal_float_buffer, imb_steal_buffer_data]
  · intro hok
    cases hd : ibuf.encoded_buffer.data <;>
      cases ho : ibuf.encoded_buffer.ownership <;>
        simp_all [flagInv, IMB_steal_encoded_buffer, imb_steal_buffer_data]

/-- The make-writable operations preserve the invariant. -/
theorem flagInv_make_writable (ibuf : ImBuf) (h : flagInv ibuf = true) :
    flagInv (IMB_make_writable_byte_buffer ibuf) = true ∧
    flagInv (IMB_make_writable_float_buffer ibuf) = true := by
  constructor
  · cases hd : ibuf.byte_buffer.data <;>
      cases ho : ibuf.byte_buffer.ownership <;>
        simp_all [flagInv, IMB_make_writable_byte_buffer,
          imb_make_writeable_buffer]
  · cases hd : ibuf.float_buffer.data <;>
      cases ho : ibuf.float_buffer.ownership <;>
        simp_all [flagInv, IMB_make_writable_float_buffer,
          imb_make_writeable_buffer]

/-- The shared-assign operations preserve the invariant provided the
documented contract holds: a non-null payload comes with a non-null
sharing handle. -/
theorem flagInv_assign_shared (ibuf : ImBuf) (bd : Option (List Nat))
    (sh : Option Nat) (h : flagInv ibuf = true)
    (hpre : bd = none ∨ sh ≠ none) :
    flagInv (IMB_assign_shared_byte_buffer ibuf bd sh) = true ∧
    flagInv (IMB_assign_shared_float_buffer ibuf bd sh) = true ∧
    flagInv (IMB_assign_shared_float_z_buffer ibuf bd sh) = true := by
  cases bd <;> cases sh <;>
    simp_all [flagInv, IMB_assign_shared_byte_buffer,
      IMB_assign_shared_float_buffer, IMB_assign_shared_float_z_buffer,
      imb_assign_shared_buffer, imb_free_buffer]

/-- The owned-assign operations preserve the invariant unconditionally. -/
theorem flagInv_assign_owned (ibuf : ImBuf) (bd : Option (List Nat))
    (ow : ImBufOwnership) (h : flagInv ibuf = true) :
    flagInv (IMB_assign_byte_buffer ibuf bd ow) = true ∧
    flagInv (IMB_assign_float_buffer ibuf bd ow) = true ∧
    flagInv (IMB_assign_z_buffer ibuf bd ow) = true ∧
    flagInv (IMB_assign_float_z_buffer ibuf bd ow) = true := by
  cases bd <;>
    simp_all [flagInv, IMB_assign_byte_buffer, IMB_assign_float_buffer,
      IMB_assign_z_buffer, IMB_assign_float_z_buffer, imb_free_buffer]

/-- One `initStep` preserves the invariant when its payload does. -/
theorem flagInv_initStep (cond : Bool) (f : ImBuf → Bool × ImBuf)
    (prev : Bool × ImBuf) (hprev : flagInv prev.2 = true)
    (hf : ∀ b, flagInv b = true → flagInv (f b).2 = true) :
    flagInv (initStep cond f prev).2 = true := by
  obtain ⟨pb, pi⟩ := prev
  cases pb
  · simpa [initStep] using hprev
  · cases cond
    · simpa [initStep] using hprev
    · simpa [initStep] using hf pi (by simpa using hprev)

/-- `IMB_initImBuf` establishes the invariant on every path, including
failure paths (which always start from a freshly zeroed aggregate). -/
theorem flagInv_init (alloc : AllocOracle) (x y planes : Nat)
    (fl : ImBufFlags) :
    flagInv (IMB_initImBuf alloc x y planes fl).2 = true := by
  have hbase : flagInv (initImBufBase x y planes) = true := by
    simp [flagInv, initImBufBase, noFlags, emptyBuffer]
  have h1 : flagInv (initStep fl.has_rect (imb_addrectImBuf alloc)
      (true, initImBufBase x y planes)).2 = true := by
    cases hfr : fl.has_rect
    · simpa [initStep] using hbase
    · simp only [initStep, if_true]
      exact flagInv_addrect alloc _ hbase (Or.inr rfl)
  unfold IMB_initImBuf
  apply flagInv_initStep _ _ _ ?_ (fun b hb => flagInv_addzbuffloat alloc b hb)
  apply flagInv_initStep _ _ _ ?_ (fun b hb => flagInv_addzbuf alloc b hb)
  exact flagInv_initStep _ _ _ h1
    (fun b hb => flagInv_addrectfloat alloc b b.channels hb)

/-- A successfully constructed aggregate satisfies the invariant. -/
theorem flagInv_allocImBuf (alloc : AllocOracle) (x y planes : Nat)
    (fl : ImBufFlags) (r : ImBuf)
    (hr : IMB_allocImBuf alloc x y planes fl = some r) :
    flagInv r = true := by
  unfold IMB_allocImBuf at hr
  dsimp only at hr
  split at hr
  · cases hr
    exact flagInv_init alloc x y planes fl
  · cases hr

/-- `bufMemcpy` never changes whether a slot is populated. -/
theorem bufMemcpy_isSome (dst src : ImBufBuffer) (n : Nat) :
    (bufMemcpy dst src n).data.isSome = dst.data.isSome := by
  cases hdd : dst.data <;> cases hsd : src.data <;>
    simp [bufMemcpy, hdd, hsd]

/-- `bufMemcpy` never changes the flags-free parts of the slot either. -/
theorem bufMemcpy_fields (dst src : ImBufBuffer) (n : Nat) :
    (bufMemcpy dst src n).ownership = dst.ownership ∧
    (bufMemcpy dst src n).implicit_sharing = dst.implicit_sharing := by
  cases hdd : dst.data <;> cases hsd : src.data <;>
    simp [bufMemcpy, hdd, hsd]

/-- A successful `imb_addrectImBuf` sets exactly `IB_rect` in the flags,
populates the byte slot and leaves the other four slots untouched. -/
theorem addrect_result (alloc : AllocOracle) (ibuf : ImBuf) :
    (imb_addrectImBuf alloc ibuf).1 = true →
    ((imb_addrectImBuf alloc ibuf).2.flags =
        { ibuf.flags with has_rect := true } ∧
      (imb_addrectImBuf alloc ibuf).2.byte_buffer.data.isSome = true ∧
      (imb_addrectImBuf alloc ibuf).2.float_buffer = ibuf.float_buffer ∧
      (imb_addrectImBuf alloc ibuf).2.z_buffer = ibuf.z_buffer ∧
      (imb_addrectImBuf alloc ibuf).2.float_z_buffer = ibuf.float_z_buffer ∧
      (imb_addrectImBuf alloc ibuf).2.encoded_buffer = ibuf.encoded_buffer ∧
      (imb_addrectImBuf alloc ibuf).2.channels = ibuf.channels ∧
      (imb_addrectImBuf alloc ibuf).2.x = ibuf.x ∧
      (imb_addrectImBuf alloc ibuf).2.y = ibuf.y) := by
  cases hp : imb_alloc_pixels alloc ibuf.x ibuf.y 4 1 with
  | none =>
      simp [imb_addrectImBuf, imb_free_buffer, imb_alloc_buffer, hp]
  | some d =>
      by_cases hpl : 32 < ibuf.planes
      · have hif : (32 < ibuf.planes) = True := eq_true hpl
        intro h1
        exfalso
        simp only [imb_addrectImBuf, imb_free_buffer, imb_alloc_buffer, hp,
          hif, if_true] at h1
        rw [addzbuf_false] at h1
        exact Bool.false_ne_true h1
      · have hif : (32 < ibuf.planes) = False := eq_false hpl
        simp [imb_addrectImBuf, imb_free_buffer, imb_alloc_buffer, hp, hif]

/-- A successful `imb_addrectfloatImBuf` sets exactly `IB_rectfloat`,
populates the float slot and leaves the byte, depth and encoded slots
untouched. -/
theorem addrectfloat_result (alloc : AllocOracle) (ibuf : ImBuf)
    (ch : Nat) :
    (imb_addrectfloatImBuf alloc ibuf ch).1 = true →
    ((imb_addrectfloatImBuf alloc ibuf ch).2.flags =
        { ibuf.flags with has_rectfloat := true } ∧
      (imb_addrectfloatImBuf alloc ibuf ch).2.float_buffer.data.isSome =
        true ∧
      (imb_addrectfloatImBuf alloc ibuf ch).2.byte_buffer =
        ibuf.byte_buffer ∧
      (imb_addrectfloatImBuf alloc ibuf ch).2.z_buffer = ibuf.z_buffer ∧
      (imb_addrectfloatImBuf alloc ibuf ch).2.float_z_buffer =
        ibuf.float_z_buffer ∧
      (imb_addrectfloatImBuf alloc ibuf ch).2.encoded_buffer =
        ibuf.encoded_buffer ∧
      (imb_addrectfloatImBuf alloc ibuf ch).2.x = ibuf.x ∧
      (imb_addrectfloatImBuf alloc ibuf ch).2.y = ibuf.y) := by
  cases hd : ibuf.float_buffer.data with
  | none =>
      cases hp : imb_alloc_pixels alloc ibuf.x ibuf.y ch 4 with
      | none =>
          simp [imb_addrectfloatImBuf, imb_free_buffer, imb_alloc_buffer,
            hd, hp]
      | some d =>
          simp [imb_addrectfloatImBuf, imb_free_buffer, imb_alloc_buffer,
            hd, hp]
  | some l =>
      cases hp : imb_alloc_pixels alloc ibuf.x ibuf.y ch 4 with
      | none =>
          simp [imb_addrectfloatImBuf, imb_freerectfloatImBuf,
            imb_freemipmapImBuf, imb_free_buffer, imb_alloc_buffer, hd, hp]
      | some d =>
          simp [imb_addrectfloatImBuf, imb_freerectfloatImBuf,
            imb_freemipmapImBuf, imb_free_buffer, imb_alloc_buffer, hd, hp]

/-- A successful `addzbuffloatImBuf` sets exactly `IB_zbuffloat`,
populates the float-depth slot and leaves the other slots untouched. -/
theorem addzbuffloat_result (alloc : AllocOracle) (ibuf : ImBuf) :
    (addzbuffloatImBuf alloc ibuf).1 = true →
    ((addzbuffloatImBuf alloc ibuf).2.flags =
        { ibuf.flags with has_zbuffloat := true } ∧
      (addzbuffloatImBuf alloc ibuf).2.float_z_buffer.data.isSome = true ∧
      (addzbuffloatImBuf alloc ibuf).2.byte_buffer = ibuf.byte_buffer ∧
      (addzbuffloatImBuf alloc ibuf).2.float_buffer = ibuf.float_buffer ∧
      (addzbuffloatImBuf alloc ibuf).2.z_buffer = ibuf.z_buffer ∧
      (addzbuffloatImBuf alloc ibuf).2.encoded_buffer =
        ibuf.encoded_buffer) := by
  cases hp : imb_alloc_pixels alloc ibuf.x ibuf.y 1 4 with
  | none =>
      simp [addzbuffloatImBuf, IMB_freezbuffloatImBuf, imb_free_buffer,
        imb_alloc_buffer, hp]
  | some d =>
      simp [addzbuffloatImBuf, IMB_freezbuffloatImBuf, imb_free_buffer,
        imb_alloc_buffer, hp]

/-- A successful `imb_addencodedbufferImBuf` sets `IB_mem`, populates the
encoded slot and leaves the four pixel slots untouched. -/
theorem addencoded_result (alloc : AllocOracle) (ibuf : ImBuf) :
    (imb_addencodedbufferImBuf alloc ibuf).1 = true →
    ((imb_addencodedbufferImBuf alloc ibuf).2.flags =
        { ibuf.flags with has_mem := true } ∧
      (imb_addencodedbufferImBuf alloc ibuf).2.encoded_buffer.data.isSome =
        true ∧
      (imb_addencodedbufferImBuf alloc ibuf).2.byte_buffer =
        ibuf.byte_buffer ∧
      (imb_addencodedbufferImBuf alloc ibuf).2.float_buffer =
        ibuf.float_buffer ∧
      (imb_addencodedbufferImBuf alloc ibuf).2.z_buffer = ibuf.z_buffer ∧
      (imb_addencodedbufferImBuf alloc ibuf).2.float_z_buffer =
        ibuf.float_z_buffer) := by
  cases hp : imb_alloc_pixels alloc 10000 1 1 1 with
  | none =>
      simp [imb_addencodedbufferImBuf, freeencodedbufferImBuf,
        imb_free_buffer, imb_alloc_buffer, hp]
  | some d =>
      simp [imb_addencodedbufferImBuf, freeencodedbufferImBuf,
        imb_free_buffer, imb_alloc_buffer, hp]

/-- A non-null `IMB_allocImBuf` result comes from a successful
`IMB_initImBuf`. -/
theorem allocImBuf_success (alloc : AllocOracle) (x y planes : Nat)
    (fl : ImBufFlags) (r : ImBuf)
    (hr : IMB_allocImBuf alloc x y planes fl = some r) :
    IMB_initImBuf alloc x y planes fl = (true, r) := by
  unfold IMB_allocImBuf at hr
  dsimp only at hr
  split at hr
  · cases hr
    rename_i h
    exact Prod.ext_iff.mpr ⟨h, rfl⟩
  · cases hr

/-- Flags of a successfully initialized aggregate: exactly the requested
byte/float/float-depth bits (a requested depth bit makes initialization
fail, so success forces it off), with `IB_zbuf` and `IB_mem` clear. -/
theorem init_success_flags (alloc : AllocOracle) (x y planes : Nat)
    (fl : ImBufFlags) (bR : ImBuf)
    (hs : IMB_initImBuf alloc x y planes fl = (true, bR)) :
    bR.flags = { has_rect := fl.has_rect
                 has_rectfloat := fl.has_rectfloat
                 has_zbuf := false
                 has_zbuffloat := fl.has_zbuffloat
                 has_mem := false } ∧
    fl.has_zbuf = false := by
  unfold IMB_initImBuf at hs
  rcases h1 : initStep fl.has_rect (imb_addrectImBuf alloc)
      (true, initImBufBase x y planes) with ⟨ok1, i1⟩
  rw [h1] at hs
  cases ok1 with
  | false => simp [initStep] at hs
  | true =>
  rcases h2 : initStep fl.has_rectfloat
      (fun ibuf => imb_addrectfloatImBuf alloc ibuf ibuf.channels)
      (true, i1) with ⟨ok2, i2⟩
  rw [h2] at hs
  cases ok2 with
  | false => simp [initStep] at hs
  | true =>
  rcases h3 : initStep fl.has_zbuf (addzbufImBuf alloc) (true, i2)
      with ⟨ok3, i3⟩
  rw [h3] at hs
  cases ok3 with
  | false => simp [initStep] at hs
  | true =>
  have hfl1 : i1.flags = { noFlags with has_rect := fl.has_rect } := by
    cases hfr : fl.has_rect
    · rw [hfr] at h1
      simp [initStep] at h1
      rw [← h1]
      rfl
    · rw [hfr] at h1
      simp [initStep] at h1
      have hok : (imb_addrectImBuf alloc (initImBufBase x y planes)).1 =
          true := by rw [h1]
      have hf := (addrect_result alloc (initImBufBase x y planes) hok).1
      rw [h1] at hf
      exact hf
  have hfl2 : i2.flags = { noFlags with
      has_rect := fl.has_rect
      has_rectfloat := fl.has_rectfloat } := by
    cases hff : fl.has_rectfloat
    · rw [hff] at h2
      simp [initStep] at h2
      rw [← h2, hfl1]
      rfl
    · rw [hff] at h2
      simp [initStep] at h2
      have hok : (imb_addrectfloatImBuf alloc i1 i1.channels).1 = true := by
        rw [h2]
      have hf := (addrectfloat_result alloc i1 i1.channels hok).1
      rw [h2] at hf
      rw [hf, hfl1]
  have hfz : fl.has_zbuf = false := by
    cases hfzv : fl.has_zbuf
    · rfl
    · exfalso
      rw [hfzv] at h3
      simp [initStep] at h3
      have := addzbuf_false alloc i2
      rw [h3] at this
      simp at this
  have hfl3 : i3 = i2 := by
    rw [hfz] at h3
    simp [initStep] at h3
    exact h3.symm
  refine ⟨?_, hfz⟩
  cases hfzf : fl.has_zbuffloat
  · rw [hfzf] at hs
    simp [initStep] at hs
    rw [← hs, hfl3, hfl2]
    rfl
  · rw [hfzf] at hs
    simp [initStep] at hs
    have hok : (addzbuffloatImBuf alloc i3).1 = true := by rw [hs]
    have hf := (addzbuffloat_result alloc i3 hok).1
    rw [hs] at hf
    rw [hf, hfl3, hfl2]
    rfl

/-!  `ite`-push lemmas used to collapse the conditional copies of
`IMB_dupImBuf` without a case explosion. -/

/-- `byte_buffer` commutes with `ite`. -/
theorem ite_byte (c : Prop) [Decidable c] (a b : ImBuf) :
    (ite c a b).byte_buffer = ite c a.byte_buffer b.byte_buffer := by
  split <;> rfl

/-- `float_buffer` commutes with `ite`. -/
theorem ite_float (c : Prop) [Decidable c] (a b : ImBuf) :
    (ite c a b).float_buffer = ite c a.float_buffer b.float_buffer := by
  split <;> rfl

/-- `z_buffer` commutes with `ite`. -/
theorem ite_z (c : Prop) [Decidable c] (a b : ImBuf) :
    (ite c a b).z_buffer = ite c a.z_buffer b.z_buffer := by
  split <;> rfl

/-- `float_z_buffer` commutes with `ite`. -/
theorem ite_fz (c : Prop) [Decidable c] (a b : ImBuf) :
    (ite c a b).float_z_buffer = ite c a.float_z_buffer b.float_z_buffer := by
  split <;> rfl

/-- `encoded_buffer` commutes with `ite`. -/
theorem ite_enc (c : Prop) [Decidable c] (a b : ImBuf) :
    (ite c a b).encoded_buffer = ite c a.encoded_buffer b.encoded_buffer := by
  split <;> rfl

/-- `flags` commutes with `ite`. -/
theorem ite_flags (c : Prop) [Decidable c] (a b : ImBuf) :
    (ite c a b).flags = ite c a.flags b.flags := by
  split <;> rfl

/-- Slot-data presence commutes with `ite`. -/
theorem ite_buf_isSome (c : Prop) [Decidable c] (a b : ImBufBuffer) :
    (ite c a b).data.isSome = ite c a.data.isSome b.data.isSome := by
  split <;> rfl

/-- The conditional copies of `dupCopySlots` change no slot's presence, and
leave the encoded slot and the flags untouched. -/
theorem dupCopySlots_pres (i1 i2 : ImBuf) (fl : ImBufFlags) (x y : Nat) :
    (dupCopySlots i1 i2 fl x y).byte_buffer.data.isSome =
      i2.byte_buffer.data.isSome ∧
    (dupCopySlots i1 i2 fl x y).float_buffer.data.isSome =
      i2.float_buffer.data.isSome ∧
    (dupCopySlots i1 i2 fl x y).z_buffer.data.isSome =
      i2.z_buffer.data.isSome ∧
    (dupCopySlots i1 i2 fl x y).float_z_buffer.data.isSome =
      i2.float_z_buffer.data.isSome ∧
    (dupCopySlots i1 i2 fl x y).encoded_buffer = i2.encoded_buffer ∧
    (dupCopySlots i1 i2 fl x y).flags = i2.flags := by
  unfold dupCopySlots
  dsimp only
  simp [ite_byte, ite_float, ite_z, ite_fz, ite_enc, ite_flags,
    ite_buf_isSome, ite_self, bufMemcpy_isSome]

/-- `IMB_dupImBuf` preserves the invariant: whenever it returns a
duplicate, the duplicate satisfies the invariant. -/
theorem flagInv_dup (alloc : AllocOracle) (ibuf1 r : ImBuf)
    (h : flagInv ibuf1 = true) (hr : IMB_dupImBuf alloc ibuf1 = some r) :
    flagInv r = true := by
  unfold IMB_dupImBuf at hr
  dsimp only at hr
  obtain ⟨⟨⟨⟨f1, f2⟩, f3⟩, f4⟩, f5⟩ :
      (((ibuf1.flags.has_rect = ibuf1.byte_buffer.data.isSome ∧
         ibuf1.flags.has_rectfloat = ibuf1.float_buffer.data.isSome) ∧
        ibuf1.flags.has_zbuf = ibuf1.z_buffer.data.isSome) ∧
        ibuf1.flags.has_zbuffloat = ibuf1.float_z_buffer.data.isSome) ∧
        ibuf1.flags.has_mem = ibuf1.encoded_buffer.data.isSome := by
    simpa [flagInv] using h
  rcases ha : IMB_allocImBuf alloc ibuf1.x ibuf1.y ibuf1.planes
      { has_rect := ibuf1.byte_buffer.data.isSome
        has_rectfloat := ibuf1.float_buffer.data.isSome
        has_zbuf := ibuf1.z_buffer.data.isSome
        has_zbuffloat := ibuf1.float_z_buffer.data.isSome
        has_mem := false } with _ | start
  · rw [ha] at hr
    simp at hr
  · rw [ha] at hr
    dsimp only at hr
    have hstartInv := flagInv_allocImBuf _ _ _ _ _ _ ha
    have hstartFlags :=
      (init_success_flags _ _ _ _ _ _ (allocImBuf_success _ _ _ _ _ _ ha)).1
    obtain ⟨⟨⟨⟨e1, e2⟩, e3⟩, e4⟩, e5⟩ :
        (((start.flags.has_rect = start.byte_buffer.data.isSome ∧
           start.flags.has_rectfloat = start.float_buffer.data.isSome) ∧
          start.flags.has_zbuf = start.z_buffer.data.isSome) ∧
          start.flags.has_zbuffloat = start.float_z_buffer.data.isSome) ∧
          start.flags.has_mem = start.encoded_buffer.data.isSome := by
      simpa [flagInv] using hstartInv
    rw [hstartFlags] at e1 e2 e3 e4 e5
    dsimp only at e1 e2 e3 e4 e5
    have hz0 := (init_success_flags _ _ _ _ _ _
      (allocImBuf_success _ _ _ _ _ _ ha)).2
    dsimp only at hz0
    obtain ⟨p1, p2, p3, p4, p5, p6⟩ := dupCopySlots_pres ibuf1 start
      { has_rect := ibuf1.byte_buffer.data.isSome
        has_rectfloat := ibuf1.float_buffer.data.isSome
        has_zbuf := false
        has_zbuffloat := ibuf1.float_z_buffer.data.isSome
        has_mem := false } ibuf1.x ibuf1.y
    by_cases henc : ibuf1.encoded_buffer.data.isSome = true
    · rw [if_pos henc] at hr
      split at hr
      · simp at hr
      · rename_i vE heq
        cases hr
        have hres := addencoded_result alloc _ (by rw [heq])
        rw [heq] at hres
        dsimp only at hres
        obtain ⟨gfl, genc, gb, gf, gz, gfz⟩ := hres
        simp [flagInv, dupStructCopy, gfl, genc, gb, gf, gz, gfz, p1, p2,
          p3, p4, p5, bufMemcpy_isSome, f1, f2, f3, f4, f5, ← e1, ← e2,
          ← e3, ← e4, ← e5, henc, hz0]
    · rw [if_neg henc] at hr
      cases hr
      have henc' : ibuf1.encoded_buffer.data.isSome = false := by
        simpa using henc
      simp [flagInv, dupStructCopy, p1, p2, p3, p4, p5, f1, f2, f3, f4, f5,
        ← e1, ← e2, ← e3, ← e4, ← e5, henc', hz0]

/-- `IMB_makeSingleUser` preserves the invariant. -/
theorem flagInv_msu (alloc : AllocOracle) (ibuf r : ImBuf)
    (h : flagInv ibuf = true) (hr : IMB_makeSingleUser alloc ibuf = some r) :
    flagInv r = true := by
  unfold IMB_makeSingleUser at hr
  split at hr
  · cases hr
    exact h
  · rcases hd : IMB_dupImBuf alloc ibuf with _ | rv
    · rw [hd] at hr
      simp at hr
    · rw [hd] at hr
      dsimp only at hr
      cases hr
      have hv := flagInv_dup alloc ibuf rv h hd
      simpa [flagInv] using hv

/-- Claim C7, counterexample: stealing from a non-owned byte slot clears
`IB_rect` but leaves the slot's data pointer intact, so the invariant is
broken on the result even though it held before the call. -/
theorem C7_counterexample :
    flagInv nonOwnedByteImBuf = true ∧
    (IMB_steal_byte_buffer nonOwnedByteImBuf).2.flags.has_rect = false ∧
    (IMB_steal_byte_buffer nonOwnedByteImBuf).2.byte_buffer.data =
      some [1, 2, 3] ∧
    flagInv (IMB_steal_byte_buffer nonOwnedByteImBuf).2 = false := by
  refine ⟨by decide, by decide, by decide, by decide⟩

/-- Claim C7 (amended): every modeled public operation preserves the
invariant "flag bit set iff the slot's data is non-null": Retain, Release
(both outcomes), the five per-slot frees, the slot allocations and the
encoded growth (their failure paths included), make-writable, the owned
assigns, initialization, construction, duplication and single-user
coercion unconditionally; stealing under its documented precondition
(owned or empty slot); shared assign under its documented precondition
(null payload or non-null handle); and byte re-allocation provided its
allocation is granted or the byte slot was empty.  The two carve-outs are
real violations in the source: stealing a non-owned slot (the
counterexample) and a refused byte re-allocation of a populated slot both
leave a flag set with a null (or non-null) pointer mismatch. -/
theorem C7_amended :
    (∀ ibuf : ImBuf, flagInv ibuf = true →
      flagInv (IMB_refImBuf ibuf) = true) ∧
    (∀ ibuf b2, flagInv ibuf = true →
      IMB_freeImBuf ibuf = FreeResult.alive b2 → flagInv b2 = true) ∧
    (∀ ibuf f, IMB_freeImBuf ibuf = FreeResult.freed f →
      flagInv f = true) ∧
    (∀ ibuf, flagInv ibuf = true →
      flagInv (imb_freerectImBuf ibuf) = true ∧
      flagInv (imb_freerectfloatImBuf ibuf) = true ∧
      flagInv (IMB_freezbufImBuf ibuf) = true ∧
      flagInv (IMB_freezbuffloatImBuf ibuf) = true ∧
      flagInv (freeencodedbufferImBuf ibuf) = true) ∧
    (∀ (alloc : AllocOracle) (ibuf : ImBuf), flagInv ibuf = true →
      flagInv (addzbufImBuf alloc ibuf).2 = true ∧
      flagInv (addzbuffloatImBuf alloc ibuf).2 = true ∧
      flagInv (imb_addencodedbufferImBuf alloc ibuf).2 = true ∧
      flagInv (imb_enlargeencodedbufferImBuf alloc ibuf).2 = true) ∧
    (∀ (alloc : AllocOracle) (ibuf : ImBuf) (channels : Nat),
      flagInv ibuf = true →
      flagInv (imb_addrectfloatImBuf alloc ibuf channels).2 = true) ∧
    (∀ (alloc : AllocOracle) (ibuf : ImBuf), flagInv ibuf = true →
      (imb_alloc_pixels alloc ibuf.x ibuf.y 4 1 ≠ none ∨
        ibuf.byte_buffer.data = none) →
      flagInv (imb_addrectImBuf alloc ibuf).2 = true) ∧
    (∀ ibuf : ImBuf, flagInv ibuf = true →
      (ibuf.byte_buffer.ownership = IB_TAKE_OWNERSHIP ∨
        ibuf.byte_buffer.data = none) →
      flagInv (IMB_steal_byte_buffer ibuf).2 = true) ∧
    (∀ ibuf : ImBuf, flagInv ibuf = true →
      (ibuf.float_buffer.ownership = IB_TAKE_OWNERSHIP ∨
        ibuf.float_buffer.data = none) →
      flagInv (IMB_steal_float_buffer ibuf).2 = true) ∧
    (∀ ibuf : ImBuf, flagInv ibuf = true →
      (ibuf.encoded_buffer.ownership = IB_TAKE_OWNERSHIP ∨
        ibuf.encoded_buffer.data = none) →
      flagInv (IMB_steal_encoded_buffer ibuf).2 = true) ∧
    (∀ ibuf : ImBuf, flagInv ibuf = true →
      flagInv (IMB_make_writable_byte_buffer ibuf) = true ∧
      flagInv (IMB_make_writable_float_buffer ibuf) = true) ∧
    (∀ (ibuf : ImBuf) (bd : Option (List Nat)) (sh : Option Nat),
      flagInv ibuf = true → (bd = none ∨ sh ≠ none) →
      flagInv (IMB_assign_shared_byte_buffer ibuf bd sh) = true ∧
      flagInv (IMB_assign_shared_float_buffer ibuf bd sh) = true ∧
      flagInv (IMB_assign_shared_float_z_buffer ibuf bd sh) = true) ∧
    (∀ (ibuf : ImBuf) (bd : Option (List Nat)) (ow : ImBufOwnership),
      flagInv ibuf = true →
      flagInv (IMB_assign_byte_buffer ibuf bd ow) = true ∧
      flagInv (IMB_assign_float_buffer ibuf bd ow) = true ∧
      flagInv (IMB_assign_z_buffer ibuf bd ow) = true ∧
      flagInv (IMB_assign_float_z_buffer ibuf bd ow) = true) ∧
    (∀ (alloc : AllocOracle) (x y planes : Nat) (fl : ImBufFlags),
      flagInv (IMB_initImBuf alloc x y planes fl).2 = true) ∧
    (∀ (alloc : AllocOracle) (x y planes : Nat) (fl : ImBufFlags)
      (r : ImBuf), IMB_allocImBuf alloc x y planes fl = some r →
      flagInv r = true) ∧
    (∀ (alloc : AllocOracle) (ibuf r : ImBuf), flagInv ibuf = true →
      IMB_dupImBuf alloc ibuf = some r → flagInv r = true) ∧
    (∀ (alloc : AllocOracle) (ibuf r : ImBuf), flagInv ibuf = true →
      IMB_makeSingleUser alloc ibuf = some r → flagInv r = true) := by
  refine ⟨flagInv_ref,
    fun ibuf b2 h hb => (flagInv_free ibuf h).1 b2 hb,
    fun ibuf f hf => ?_,
    flagInv_slot_frees,
    fun alloc ibuf h => ⟨flagInv_addzbuf alloc ibuf h,
      flagInv_addzbuffloat alloc ibuf h,
      flagInv_addencoded alloc ibuf h,
      flagInv_enlarge alloc ibuf h⟩,
    fun alloc ibuf channels h => flagInv_addrectfloat alloc ibuf channels h,
    fun alloc ibuf h hok => flagInv_addrect alloc ibuf h hok,
    fun ibuf h hok => (flagInv_steals ibuf h).1 hok,
    fun ibuf h hok => (flagInv_steals ibuf h).2.1 hok,
    fun ibuf h hok => (flagInv_steals ibuf h).2.2 hok,
    flagInv_make_writable,
    fun ibuf bd sh h hpre => flagInv_assign_shared ibuf bd sh h hpre,
    fun ibuf bd ow h => flagInv_assign_owned ibuf bd ow h,
    fun alloc x y planes fl => flagInv_init alloc x y planes fl,
    fun alloc x y planes fl r hr => flagInv_allocImBuf alloc x y planes fl r hr,
    fun alloc ibuf r h hr => flagInv_dup alloc ibuf r h hr,
    fun alloc ibuf r h hr => flagInv_msu alloc ibuf r h hr⟩
  unfold IMB_freeImBuf at hf
  split at hf
  · cases hf
  · cases hf
    exact flagInv_teardown ibuf

/-- Claim C7 witness: the byte-steal clause of the amended theorem
evaluated on an aggregate whose byte slot is owned. -/
theorem C7_witness :
    flagInv (IMB_steal_byte_buffer ownedByteImBuf).2 = true := by
  exact C7_amended.2.2.2.2.2.2.2.1 ownedByteImBuf (by decide)
    (Or.inl (by decide))

end Imbuf
